import Mathlib

/-!
Shallow embedding of the analog-input subsystem of the node-automation-hat
repository, file src/io/analog-input.ts: the AnalogInputService driver for
the ADS1015 ADC and the per-channel AnalogInput objects.

The i2c-bus transport and the light-service collaborator are modelled by an
oracle that fixes the outcome of each external call (indexed by how many
calls of the same kind happened before), and every external call is recorded
in an event trace, so that call counts and call order are observable.
-/

namespace AutomationHat

/-! Register addresses and configuration constants, lines 4-20 of
src/io/analog-input.ts. -/

def ADS1015_REG_CONVERSION : Nat := 0x00
def ADS1015_REG_CONFIG : Nat := 0x01
def ADS1015_CONFIG_OS_SINGLE : Nat := 0x8000
def ADS1015_CONFIG_MUX_SINGLE_0 : Nat := 0x4000
def ADS1015_CONFIG_MUX_SINGLE_1 : Nat := 0x5000
def ADS1015_CONFIG_MUX_SINGLE_2 : Nat := 0x6000
def ADS1015_CONFIG_MUX_SINGLE_3 : Nat := 0x7000
def ADS1015_CONFIG_GAIN_ONE : Nat := 0x0200
def ADS1015_CONFIG_MODE_SINGLE : Nat := 0x0100
def ADS1015_CONFIG_DR_1600SPS : Nat := 0x0080
def ADS1015_CONFIG_CMODE_TRAD : Nat := 0x0000
def ADS1015_CONFIG_CPOL_ACTVLOW : Nat := 0x0000
def ADS1015_CONFIG_CLAT_NONLAT : Nat := 0x0000
def ADS1015_CONFIG_CQUE_NONE : Nat := 0x0003

/-- Fixed ADS1015 device address (line 30 of the source). -/
def address : Nat := 0x48

/-- Exceptions thrown by the service: the two Error kinds it constructs
itself, and opaque external errors rethrown from the transport or the light
service, identified by an opaque code. -/
inductive Exc where
  | stateError : Exc
  | invalidChannel : Int → Exc
  | ext : Nat → Exc
deriving DecidableEq

/-- Message text of the errors constructed by the service itself. -/
def Exc.message : Exc → String
  | .stateError => "AnalogInputService is not enabled. Call enable() first."
  | .invalidChannel c => "Invalid channel: " ++ toString c ++ ". Must be 0-3."
  | .ext n => "External error " ++ toString n

/-- Observable external calls made by the service: i2c-bus calls, light
service calls and console.error logging. -/
inductive Event where
  | openBus : Nat → Event
  | closeBus : Event
  | writeBlock : Nat → Nat → Nat → List Nat → Event
  | readBlock : Nat → Nat → Nat → Event
  | lightOn : Nat → Event
  | lightOff : Nat → Event
  | lightUpdate : Event
  | logError : Exc → Event
deriving DecidableEq

/-- The environment: for the n-th call of each kind of external operation,
either an opaque error code (the call throws) or its return value.  Read
results are the two bytes the transport stores into the buffer. -/
structure Oracle where
  openRes : Nat → Except Nat Unit
  closeRes : Nat → Except Nat Unit
  writeRes : Nat → Except Nat Nat
  readRes : Nat → Except Nat (Nat × Nat)
  lightOnRes : Nat → Nat → Except Nat Unit
  lightOffRes : Nat → Nat → Except Nat Unit
  updateRes : Nat → Except Nat Unit

/-- Mutable state of an AnalogInputService together with the currentValue
field of its four AnalogInput objects (input1..input4 hold channels 0..3). -/
structure ServiceState where
  i2cBus : Option Unit
  enabled : Bool
  currentValue : Fin 4 → Nat

/-- A service state paired with its environment and the trace of external
calls made so far. -/
structure Sys where
  oracle : Oracle
  trace : List Event
  st : ServiceState

/-! Per-kind call counters over a trace, used to index the oracle. -/

def countOpen (tr : List Event) : Nat :=
  tr.countP fun e => match e with | .openBus _ => true | _ => false

def countClose (tr : List Event) : Nat :=
  tr.countP fun e => match e with | .closeBus => true | _ => false

def countWrite (tr : List Event) : Nat :=
  tr.countP fun e => match e with | .writeBlock _ _ _ _ => true | _ => false

def countRead (tr : List Event) : Nat :=
  tr.countP fun e => match e with | .readBlock _ _ _ => true | _ => false

def countLightOn (i : Nat) (tr : List Event) : Nat :=
  tr.countP fun e => match e with | .lightOn j => j == i | _ => false

def countLightOff (i : Nat) (tr : List Event) : Nat :=
  tr.countP fun e => match e with | .lightOff j => j == i | _ => false

def countUpdate (tr : List Event) : Nat :=
  tr.countP fun e => match e with | .lightUpdate => true | _ => false

/-- Reinterpret an oracle outcome as a thrown exception or a value. -/
def toExc : Except Nat α → Except Exc α
  | .ok a => .ok a
  | .error c => .error (.ext c)

/-- Record one external call in the trace. -/
def emit (s : Sys) (e : Event) : Sys := { s with trace := s.trace ++ [e] }

/-! The external primitives.  Each one records its event and returns the
oracle-determined outcome. -/

def busOpen (s : Sys) : Sys × Except Exc Unit :=
  (emit s (.openBus 1), toExc (s.oracle.openRes (countOpen s.trace)))

def busClose (s : Sys) : Sys × Except Exc Unit :=
  (emit s .closeBus, toExc (s.oracle.closeRes (countClose s.trace)))

def busWrite (s : Sys) (addr reg cnt : Nat) (bytes : List Nat) :
    Sys × Except Exc Nat :=
  (emit s (.writeBlock addr reg cnt bytes),
   toExc (s.oracle.writeRes (countWrite s.trace)))

def busRead (s : Sys) (addr reg cnt : Nat) : Sys × Except Exc (Nat × Nat) :=
  (emit s (.readBlock addr reg cnt), toExc (s.oracle.readRes (countRead s.trace)))

def lightOn (i : Nat) (s : Sys) : Sys × Except Exc Unit :=
  (emit s (.lightOn i), toExc (s.oracle.lightOnRes i (countLightOn i s.trace)))

def lightOff (i : Nat) (s : Sys) : Sys × Except Exc Unit :=
  (emit s (.lightOff i), toExc (s.oracle.lightOffRes i (countLightOff i s.trace)))

def lightUpdate (s : Sys) : Sys × Except Exc Unit :=
  (emit s .lightUpdate, toExc (s.oracle.updateRes (countUpdate s.trace)))

def logError (s : Sys) (e : Exc) : Sys := emit s (.logError e)

/-! State updates. -/

def setBus (b : Option Unit) (s : Sys) : Sys :=
  { s with st := { s.st with i2cBus := b } }

def setEnabled (b : Bool) (s : Sys) : Sys :=
  { s with st := { s.st with enabled := b } }

def setVal (i : Fin 4) (v : Nat) (s : Sys) : Sys :=
  { s with st := { s.st with currentValue := Function.update s.st.currentValue i v } }

/-- The light-activation statements of enable, lines 55-58 of the source:
turn on analog input lights 1-3, then one batched update; the first throw
aborts the sequence. -/
def lightsOnPhase (s : Sys) : Sys × Except Exc Unit :=
  match lightOn 1 s with
  | (s1, .error e) => (s1, .error e)
  | (s1, .ok _) =>
    match lightOn 2 s1 with
    | (s2, .error e) => (s2, .error e)
    | (s2, .ok _) =>
      match lightOn 3 s2 with
      | (s3, .error e) => (s3, .error e)
      | (s3, .ok _) => lightUpdate s3

/-- The light-deactivation statements of disable, lines 79-82 of the source:
turn off analog input lights 1-3, then one batched update; the first throw
aborts the sequence. -/
def lightsOffPhase (s : Sys) : Sys × Except Exc Unit :=
  match lightOff 1 s with
  | (s1, .error e) => (s1, .error e)
  | (s1, .ok _) =>
    match lightOff 2 s1 with
    | (s2, .error e) => (s2, .error e)
    | (s2, .ok _) =>
      match lightOff 3 s2 with
      | (s3, .error e) => (s3, .error e)
      | (s3, .ok _) => lightUpdate s3

/-- AnalogInputService.enable, lines 46-63 of the source.  If already
enabled, return.  Otherwise open bus 1, set the handle and the enabled flag,
then run the light-activation phase; any throw in the try block is logged
via console.error and rethrown. -/
def enable (s : Sys) : Sys × Except Exc Unit :=
  if s.st.enabled then (s, .ok ())
  else
    match busOpen s with
    | (s1, .error e) => (logError s1 e, .error e)
    | (s1, .ok _) =>
      match lightsOnPhase (setEnabled true (setBus (some ()) s1)) with
      | (s2, .error e) => (logError s2 e, .error e)
      | (s2, .ok _) => (s2, .ok ())

/-- The bus-closing statements of disable, lines 72-75 of the source: if a
handle is set, close it (closeSync may throw) and on success clear the
handle reference. -/
def closePhase (s : Sys) : Sys × Except Exc Unit :=
  if s.st.i2cBus.isSome then
    match busClose s with
    | (s1, .error e) => (s1, .error e)
    | (s1, .ok _) => (setBus none s1, .ok ())
  else (s, .ok ())

/-- AnalogInputService.disable, lines 68-86 of the source.  If not enabled,
return.  Otherwise, inside one try block: run the close phase, clear the
enabled flag, turn off lights 1-3 and push one batched update.  Any throw
inside the try block jumps to the catch, which logs via console.error and
suppresses the error; statements after the throwing one do not run (in
particular a closeSync throw skips clearing the handle and the flag). -/
def disable (s : Sys) : Sys × Except Exc Unit :=
  if !s.st.enabled then (s, .ok ())
  else
    match closePhase s with
    | (s1, .error e) => (logError s1 e, .ok ())
    | (s1, .ok _) =>
      match lightsOffPhase (setEnabled false s1) with
      | (s2, .error e) => (logError s2 e, .ok ())
      | (s2, .ok _) => (s2, .ok ())

/-- The conversion-result decode of AnalogInputService.readChannel, lines
159-161 of the source: the two bytes stored in the Buffer (Buffer cells hold
one byte each, hence the mod 256), combined with buffer0 shifted left 8 and
or-ed with buffer1, then shifted right by 4. -/
def decode (b0 b1 : Nat) : Nat := (((b0 % 256) <<< 8) ||| (b1 % 256)) >>> 4

/-- The channel-mux switch of readChannel, lines 123-138 of the source:
some mux constant for channels 0-3, none for the default branch (which
throws the invalid-channel error). -/
def muxConfig (c : Int) : Option Nat :=
  if c = 0 then some ADS1015_CONFIG_MUX_SINGLE_0
  else if c = 1 then some ADS1015_CONFIG_MUX_SINGLE_1
  else if c = 2 then some ADS1015_CONFIG_MUX_SINGLE_2
  else if c = 3 then some ADS1015_CONFIG_MUX_SINGLE_3
  else none

/-- The fixed part of the configuration word, lines 113-120 of the source. -/
def baseConfig : Nat :=
  ADS1015_CONFIG_CQUE_NONE ||| ADS1015_CONFIG_CLAT_NONLAT |||
  ADS1015_CONFIG_CPOL_ACTVLOW ||| ADS1015_CONFIG_CMODE_TRAD |||
  ADS1015_CONFIG_DR_1600SPS ||| ADS1015_CONFIG_MODE_SINGLE |||
  ADS1015_CONFIG_GAIN_ONE ||| ADS1015_CONFIG_OS_SINGLE

/-- The two bytes written to the config register, lines 141-144 of the
source: high byte first. -/
def configBytes (config : Nat) : List Nat :=
  [(config >>> 8) &&& 0xff, config &&& 0xff]

/-- AnalogInputService.readChannel, lines 107-162 of the source.  The
busy-wait settling delay (lines 149-153) has no observable effect on state
or trace and is not represented. -/
def readChannel (c : Int) (s : Sys) : Sys × Except Exc Nat :=
  if !(s.st.enabled && s.st.i2cBus.isSome) then (s, .error .stateError)
  else
    match muxConfig c with
    | none => (s, .error (.invalidChannel c))
    | some mux =>
      match busWrite s address ADS1015_REG_CONFIG 2 (configBytes (baseConfig ||| mux)) with
      | (s1, .error e) => (s1, .error e)
      | (s1, .ok _) =>
        match busRead s1 address ADS1015_REG_CONVERSION 2 with
        | (s2, .error e) => (s2, .error e)
        | (s2, .ok (b0, b1)) => (s2, .ok (decode b0 b1))

/-- AnalogInput.read, lines 203-206 of the source, for the input holding
channel index i: delegate to the service, store the result in currentValue
on success, return it; propagate the error otherwise. -/
def chanRead (i : Fin 4) (s : Sys) : Sys × Except Exc Nat :=
  match readChannel ((i : Nat) : Int) s with
  | (s1, .error e) => (s1, .error e)
  | (s1, .ok v) => (setVal i v s1, .ok v)

/-- AnalogInputService.read, lines 91-100 of the source: require enabled,
then read input1, input2, input3, input4 in order, stopping at the first
error. -/
def readAll (s : Sys) : Sys × Except Exc Unit :=
  if !s.st.enabled then (s, .error .stateError)
  else
    match chanRead 0 s with
    | (s1, .error e) => (s1, .error e)
    | (s1, .ok _) =>
      match chanRead 1 s1 with
      | (s2, .error e) => (s2, .error e)
      | (s2, .ok _) =>
        match chanRead 2 s2 with
        | (s3, .error e) => (s3, .error e)
        | (s3, .ok _) =>
          match chanRead 3 s3 with
          | (s4, .error e) => (s4, .error e)
          | (s4, .ok _) => (s4, .ok ())

/-! The AnalogInput getters, lines 178-198 of the source.  JS double
arithmetic is modelled exactly over the rationals; 4.096 is 4096/1000. -/

/-- AnalogInput.raw getter: currentValue verbatim. -/
def rawGet (s : Sys) (i : Fin 4) : Nat := s.st.currentValue i

/-- AnalogInput.voltage getter: (currentValue / 2047.0) * 4.096, then the
divider factor 13. -/
def voltageGet (s : Sys) (i : Fin 4) : ℚ :=
  ((s.st.currentValue i : ℚ) / 2047) * (4096 / 1000) * 13

/-- AnalogInput.percent getter: (currentValue / 2047.0) * 100. -/
def percentGet (s : Sys) (i : Fin 4) : ℚ :=
  ((s.st.currentValue i : ℚ) / 2047) * 100

/-- The spec reference formula for voltage: (r/2047.0)*4.096*13.0. -/
def specVoltage (r : ℚ) : ℚ := (r / 2047) * (4096 / 1000) * 13

/-- The spec reference formula for percent: (r/2047.0)*100.0. -/
def specPercent (r : ℚ) : ℚ := (r / 2047) * 100

/-- State of a freshly constructed AnalogInputService with its four inputs:
no bus handle, not enabled, all currentValue fields 0. -/
def initState : ServiceState :=
  { i2cBus := none, enabled := false, currentValue := fun _ => 0 }

/-- A fresh service under a given environment. -/
def initSys (o : Oracle) : Sys := { oracle := o, trace := [], st := initState }

/-- The public operations of the subsystem, for stating invariants over
arbitrary call sequences. -/
inductive Op where
  | enableOp : Op
  | disableOp : Op
  | readAllOp : Op
  | chanReadOp : Fin 4 → Op
  | readChannelOp : Int → Op

/-- State transition of one public operation (its thrown or returned value
is discarded). -/
def step (s : Sys) : Op → Sys
  | .enableOp => (enable s).1
  | .disableOp => (disable s).1
  | .readAllOp => (readAll s).1
  | .chanReadOp i => (chanRead i s).1
  | .readChannelOp c => (readChannel c s).1

/-- Run a sequence of public operations. -/
def runOps (s : Sys) : List Op → Sys
  | [] => s
  | op :: ops => runOps (step s op) ops

/-- Repeated enable calls. -/
def iterEnable : Nat → Sys → Sys
  | 0, s => s
  | n + 1, s => iterEnable n (enable s).1

/-- Repeated disable calls. -/
def iterDisable : Nat → Sys → Sys
  | 0, s => s
  | n + 1, s => iterDisable n (disable s).1

/-! Concrete environments used as witnesses and counterexamples. -/

/-- Environment in which every external call succeeds and every conversion
read yields bytes 0x7F, 0xF0 (the behavior of the repository test mock). -/
def okOracle : Oracle :=
  { openRes := fun _ => .ok ()
    closeRes := fun _ => .ok ()
    writeRes := fun _ => .ok 2
    readRes := fun _ => .ok (0x7F, 0xF0)
    lightOnRes := fun _ _ => .ok ()
    lightOffRes := fun _ _ => .ok ()
    updateRes := fun _ => .ok () }

/-- Environment in which closing the bus always throws (code 7). -/
def closeFailOracle : Oracle := { okOracle with closeRes := fun _ => .error 7 }

/-- Environment whose conversion reads yield bytes 0xFF, 0xF0. -/
def maxBytesOracle : Oracle := { okOracle with readRes := fun _ => .ok (0xFF, 0xF0) }

/-- Environment in which turning on light 1 always throws (code 9). -/
def light1FailOracle : Oracle :=
  { okOracle with lightOnRes := fun i _ => if i = 1 then .error 9 else .ok () }

/-- An already-enabled service state with an open bus and zeroed channels. -/
def enabledState : ServiceState :=
  { i2cBus := some (), enabled := true, currentValue := fun _ => 0 }

/-- A service state whose channels all cache the raw value 2048. -/
def over2047State : ServiceState :=
  { i2cBus := none, enabled := false, currentValue := fun _ => 2048 }

/-- Config-register write event for a given mux selector. -/
def cfgEvent (mux : Nat) : Event :=
  .writeBlock address ADS1015_REG_CONFIG 2 (configBytes (baseConfig ||| mux))

/-- Conversion-register read event. -/
def convEvent : Event := .readBlock address ADS1015_REG_CONVERSION 2

/-- The system after one successful channel read: protocol events appended
and the value stored. -/
def afterRead (i : Fin 4) (mux v : Nat) (s : Sys) : Sys :=
  setVal i v { s with trace := s.trace ++ [cfgEvent mux, convEvent] }

/-- The partially-enabled outcome left behind when enable throws during
light activation: the light error with code c is rethrown, yet the service
is enabled with the bus handle set, a second enable is a complete no-op,
and a read-all under healthy write/read transactions succeeds. -/
def partialEnableOutcome (o : Oracle) (st0 : ServiceState) (c : Nat) : Prop :=
  (enable { oracle := o, trace := [], st := st0 }).2 = .error (.ext c)
  ∧ (enable { oracle := o, trace := [], st := st0 }).1.st.enabled = true
  ∧ (enable { oracle := o, trace := [], st := st0 }).1.st.i2cBus = some ()
  ∧ enable (enable { oracle := o, trace := [], st := st0 }).1
      = ((enable { oracle := o, trace := [], st := st0 }).1, .ok ())
  ∧ (∀ n0 n1 n2 n3 b00 b01 b10 b11 b20 b21 b30 b31 : Nat,
      o.writeRes 0 = .ok n0 → o.readRes 0 = .ok (b00, b01) →
      o.writeRes 1 = .ok n1 → o.readRes 1 = .ok (b10, b11) →
      o.writeRes 2 = .ok n2 → o.readRes 2 = .ok (b20, b21) →
      o.writeRes 3 = .ok n3 → o.readRes 3 = .ok (b30, b31) →
      (readAll (enable { oracle := o, trace := [], st := st0 }).1).2 = .ok ())

/-! Basic facts about the primitives. -/

@[simp] theorem emit_st (s : Sys) (e : Event) : (emit s e).st = s.st := rfl

@[simp] theorem emit_oracle (s : Sys) (e : Event) : (emit s e).oracle = s.oracle := rfl

@[simp] theorem logError_st (s : Sys) (e : Exc) : (logError s e).st = s.st := rfl

@[simp] theorem setVal_enabled (i : Fin 4) (v : Nat) (s : Sys) :
    (setVal i v s).st.enabled = s.st.enabled := rfl

@[simp] theorem setVal_bus (i : Fin 4) (v : Nat) (s : Sys) :
    (setVal i v s).st.i2cBus = s.st.i2cBus := rfl

@[simp] theorem setVal_trace (i : Fin 4) (v : Nat) (s : Sys) :
    (setVal i v s).trace = s.trace := rfl

@[simp] theorem setVal_oracle (i : Fin 4) (v : Nat) (s : Sys) :
    (setVal i v s).oracle = s.oracle := rfl

/-- The decode of any two buffer bytes is at most 4095: the combined 16-bit
value is below 65536 and the shift divides by 16. -/
theorem decode_le (b0 b1 : Nat) : decode b0 b1 ≤ 4095 := by
  unfold decode
  have hb0 : (b0 % 256) <<< 8 < 2 ^ 16 := by
    rw [Nat.shiftLeft_eq]
    have h : b0 % 256 < 256 := Nat.mod_lt _ (by norm_num)
    calc (b0 % 256) * 2 ^ 8 < 256 * 2 ^ 8 := by
          exact Nat.mul_lt_mul_of_lt_of_le h (le_refl _) (by norm_num)
      _ = 2 ^ 16 := by norm_num
  have hb1 : b1 % 256 < 2 ^ 16 :=
    lt_of_lt_of_le (Nat.mod_lt _ (by norm_num)) (by norm_num)
  have h := Nat.or_lt_two_pow hb0 hb1
  rw [Nat.shiftRight_eq_div_pow]
  have h65535 : ((b0 % 256) <<< 8 ||| b1 % 256) ≤ 65535 := by
    norm_num at h
    omega
  calc ((b0 % 256) <<< 8 ||| b1 % 256) / 2 ^ 4 ≤ 65535 / 2 ^ 4 :=
        Nat.div_le_div_right h65535
    _ = 4095 := by norm_num

/-! Counter lemmas. -/

@[simp] theorem countOpen_append (l1 l2 : List Event) :
    countOpen (l1 ++ l2) = countOpen l1 + countOpen l2 :=
  List.countP_append _ l1 l2

@[simp] theorem countClose_append (l1 l2 : List Event) :
    countClose (l1 ++ l2) = countClose l1 + countClose l2 :=
  List.countP_append _ l1 l2

@[simp] theorem countOpen_openBus (n : Nat) : countOpen [.openBus n] = 1 := rfl

@[simp] theorem countOpen_lightOn (n : Nat) : countOpen [.lightOn n] = 0 := rfl

@[simp] theorem countOpen_lightUpdate : countOpen [.lightUpdate] = 0 := rfl

@[simp] theorem countOpen_logError (e : Exc) : countOpen [.logError e] = 0 := rfl

@[simp] theorem countClose_closeBus : countClose [.closeBus] = 1 := rfl

@[simp] theorem countClose_lightOff (n : Nat) : countClose [.lightOff n] = 0 := rfl

@[simp] theorem countClose_lightUpdate : countClose [.lightUpdate] = 0 := rfl

@[simp] theorem countClose_logError (e : Exc) : countClose [.logError e] = 0 := rfl

/-! Component facts for the primitives and the state updates. -/

@[simp] theorem busOpen_st (s : Sys) : (busOpen s).1.st = s.st := rfl

@[simp] theorem busClose_st (s : Sys) : (busClose s).1.st = s.st := rfl

@[simp] theorem busWrite_st (s : Sys) (a r c : Nat) (b : List Nat) :
    (busWrite s a r c b).1.st = s.st := rfl

@[simp] theorem busRead_st (s : Sys) (a r c : Nat) : (busRead s a r c).1.st = s.st := rfl

@[simp] theorem lightOn_st (i : Nat) (s : Sys) : (lightOn i s).1.st = s.st := rfl

@[simp] theorem lightOff_st (i : Nat) (s : Sys) : (lightOff i s).1.st = s.st := rfl

@[simp] theorem lightUpdate_st (s : Sys) : (lightUpdate s).1.st = s.st := rfl

@[simp] theorem busOpen_trace (s : Sys) :
    (busOpen s).1.trace = s.trace ++ [.openBus 1] := rfl

@[simp] theorem busClose_trace (s : Sys) :
    (busClose s).1.trace = s.trace ++ [.closeBus] := rfl

@[simp] theorem lightOn_trace (i : Nat) (s : Sys) :
    (lightOn i s).1.trace = s.trace ++ [.lightOn i] := rfl

@[simp] theorem lightOff_trace (i : Nat) (s : Sys) :
    (lightOff i s).1.trace = s.trace ++ [.lightOff i] := rfl

@[simp] theorem lightUpdate_trace (s : Sys) :
    (lightUpdate s).1.trace = s.trace ++ [.lightUpdate] := rfl

@[simp] theorem logError_trace (s : Sys) (e : Exc) :
    (logError s e).trace = s.trace ++ [.logError e] := rfl

@[simp] theorem logError_oracle (s : Sys) (e : Exc) :
    (logError s e).oracle = s.oracle := rfl

@[simp] theorem countWrite_logError (e : Exc) : countWrite [.logError e] = 0 := rfl

@[simp] theorem countRead_logError (e : Exc) : countRead [.logError e] = 0 := rfl

@[simp] theorem setBus_val (b : Option Unit) (s : Sys) :
    (setBus b s).st.currentValue = s.st.currentValue := rfl

@[simp] theorem setEnabled_val (b : Bool) (s : Sys) :
    (setEnabled b s).st.currentValue = s.st.currentValue := rfl

@[simp] theorem setBus_enabled (b : Option Unit) (s : Sys) :
    (setBus b s).st.enabled = s.st.enabled := rfl

@[simp] theorem setEnabled_bus (b : Bool) (s : Sys) :
    (setEnabled b s).st.i2cBus = s.st.i2cBus := rfl

@[simp] theorem setBus_trace (b : Option Unit) (s : Sys) :
    (setBus b s).trace = s.trace := rfl

@[simp] theorem setEnabled_trace (b : Bool) (s : Sys) :
    (setEnabled b s).trace = s.trace := rfl

@[simp] theorem setBus_oracle (b : Option Unit) (s : Sys) :
    (setBus b s).oracle = s.oracle := rfl

@[simp] theorem setEnabled_oracle (b : Bool) (s : Sys) :
    (setEnabled b s).oracle = s.oracle := rfl

/-! Behavior lemmas for readChannel and chanRead at arbitrary states. -/

/-- The service readChannel never mutates the service state. -/
theorem readChannel_st (c : Int) (s : Sys) : (readChannel c s).1.st = s.st := by
  unfold readChannel
  split
  · rfl
  split
  · rfl
  rename_i x mux hmux
  rcases hw : busWrite s address ADS1015_REG_CONFIG 2 (configBytes (baseConfig ||| mux))
    with ⟨s1, r1⟩
  have hs1 : s1.st = s.st := by
    have h := busWrite_st s address ADS1015_REG_CONFIG 2 (configBytes (baseConfig ||| mux))
    rw [hw] at h
    exact h
  cases r1 with
  | error e => exact hs1
  | ok n =>
      dsimp only
      rcases hr : busRead s1 address ADS1015_REG_CONVERSION 2 with ⟨s2, r2⟩
      have hs2 : s2.st = s1.st := by
        have h := busRead_st s1 address ADS1015_REG_CONVERSION 2
        rw [hr] at h
        exact h
      cases r2 with
      | error e => exact hs2.trans hs1
      | ok p =>
          cases p with
          | mk b0 b1 => exact hs2.trans hs1

/-- A successful readChannel returns a value of at most 4095. -/
theorem readChannel_ok_le (c : Int) (s s1 : Sys) (v : Nat)
    (h : readChannel c s = (s1, .ok v)) : v ≤ 4095 := by
  unfold readChannel at h
  split at h
  · simp_all
  split at h
  · simp_all
  rename_i x mux hmux
  rcases hw : busWrite s address ADS1015_REG_CONFIG 2 (configBytes (baseConfig ||| mux))
    with ⟨sa, r1⟩
  rw [hw] at h
  cases r1 with
  | error e => simp at h
  | ok n =>
      try dsimp only at h
      rcases hr : busRead sa address ADS1015_REG_CONVERSION 2 with ⟨sb, r2⟩
      rw [hr] at h
      cases r2 with
      | error e => simp at h
      | ok p =>
          cases p with
          | mk b0 b1 =>
              try dsimp only at h
              simp only [Prod.mk.injEq, Except.ok.injEq] at h
              exact h.2 ▸ decode_le _ _

/-- A failed channel read leaves the whole service state unchanged. -/
theorem chanRead_error_st (i : Fin 4) (s s1 : Sys) (e : Exc)
    (h : chanRead i s = (s1, .error e)) : s1.st = s.st := by
  unfold chanRead at h
  rcases hrc : readChannel ((i : Nat) : Int) s with ⟨sa, ra⟩
  rw [hrc] at h
  have hst : sa.st = s.st := by
    have hx := readChannel_st ((i : Nat) : Int) s
    rw [hrc] at hx
    exact hx
  cases ra with
  | error e2 =>
      try dsimp only at h
      simp only [Prod.mk.injEq, Except.error.injEq] at h
      exact h.1 ▸ hst
  | ok v =>
      try dsimp only at h
      simp at h

/-- A successful channel read stores the returned value in the channel's
currentValue. -/
theorem chanRead_ok_val (i : Fin 4) (s : Sys) (v : Nat)
    (h : (chanRead i s).2 = .ok v) : (chanRead i s).1.st.currentValue i = v := by
  unfold chanRead at h ⊢
  rcases hrc : readChannel ((i : Nat) : Int) s with ⟨sa, ra⟩
  rw [hrc] at h
  cases ra with
  | error e2 =>
      try dsimp only at h
      simp at h
  | ok w =>
      try dsimp only at h
      try dsimp only
      simp only [Except.ok.injEq] at h
      simp [setVal, h, Function.update_same]

/-- A channel read never touches another channel's currentValue. -/
theorem chanRead_other_val (i j : Fin 4) (s : Sys) (hij : j ≠ i) :
    (chanRead i s).1.st.currentValue j = s.st.currentValue j := by
  unfold chanRead
  rcases hrc : readChannel ((i : Nat) : Int) s with ⟨sa, ra⟩
  have hst : sa.st = s.st := by
    have hx := readChannel_st ((i : Nat) : Int) s
    rw [hrc] at hx
    exact hx
  cases ra with
  | error e2 =>
      try dsimp only
      simp [hst]
  | ok w =>
      try dsimp only
      simp [setVal, hst, Function.update_noteq hij]

/-- After any channel read, the channel values stay at most 4095 if they
were, whether the read succeeded or failed. -/
theorem chanRead_le (i j : Fin 4) (s : Sys)
    (h : ∀ k, s.st.currentValue k ≤ 4095) :
    (chanRead i s).1.st.currentValue j ≤ 4095 := by
  unfold chanRead
  rcases hrc : readChannel ((i : Nat) : Int) s with ⟨sa, ra⟩
  have hst : sa.st = s.st := by
    have hx := readChannel_st ((i : Nat) : Int) s
    rw [hrc] at hx
    exact hx
  cases ra with
  | error e2 =>
      try dsimp only
      simpa [hst] using h j
  | ok w =>
      try dsimp only
      have hw : w ≤ 4095 := readChannel_ok_le _ _ _ _ hrc
      by_cases hji : j = i
      · subst hji
        simp [setVal, Function.update_same, hw]
      · simpa [setVal, hst, Function.update_noteq hji] using h j

/-- The light-activation phase never mutates the service state. -/
theorem lightsOnPhase_st (s : Sys) : (lightsOnPhase s).1.st = s.st := by
  unfold lightsOnPhase
  rcases h1 : lightOn 1 s with ⟨s1, r1⟩
  have hs1 : s1.st = s.st := by
    have h := lightOn_st 1 s
    rw [h1] at h
    exact h
  cases r1 with
  | error e => exact hs1
  | ok u =>
      try dsimp only
      rcases h2 : lightOn 2 s1 with ⟨s2, r2⟩
      have hs2 : s2.st = s.st := by
        have h := lightOn_st 2 s1
        rw [h2] at h
        exact h.trans hs1
      cases r2 with
      | error e => exact hs2
      | ok u2 =>
          try dsimp only
          rcases h3 : lightOn 3 s2 with ⟨s3, r3⟩
          have hs3 : s3.st = s.st := by
            have h := lightOn_st 3 s2
            rw [h3] at h
            exact h.trans hs2
          cases r3 with
          | error e => exact hs3
          | ok u3 =>
              try dsimp only
              exact (lightUpdate_st s3).trans hs3

/-- The light-deactivation phase never mutates the service state. -/
theorem lightsOffPhase_st (s : Sys) : (lightsOffPhase s).1.st = s.st := by
  unfold lightsOffPhase
  rcases h1 : lightOff 1 s with ⟨s1, r1⟩
  have hs1 : s1.st = s.st := by
    have h := lightOff_st 1 s
    rw [h1] at h
    exact h
  cases r1 with
  | error e => exact hs1
  | ok u =>
      try dsimp only
      rcases h2 : lightOff 2 s1 with ⟨s2, r2⟩
      have hs2 : s2.st = s.st := by
        have h := lightOff_st 2 s1
        rw [h2] at h
        exact h.trans hs1
      cases r2 with
      | error e => exact hs2
      | ok u2 =>
          try dsimp only
          rcases h3 : lightOff 3 s2 with ⟨s3, r3⟩
          have hs3 : s3.st = s.st := by
            have h := lightOff_st 3 s2
            rw [h3] at h
            exact h.trans hs2
          cases r3 with
          | error e => exact hs3
          | ok u3 =>
              try dsimp only
              exact (lightUpdate_st s3).trans hs3

/-- The light-activation phase appends only light events to the trace. -/
theorem lightsOnPhase_trace (s : Sys) :
    ∃ tl, (lightsOnPhase s).1.trace = s.trace ++ tl
      ∧ countOpen tl = 0 ∧ countClose tl = 0
      ∧ countWrite tl = 0 ∧ countRead tl = 0 := by
  unfold lightsOnPhase
  rcases h1 : lightOn 1 s with ⟨s1, r1⟩
  have ht1 : s1.trace = s.trace ++ [Event.lightOn 1] := by
    have hx := congrArg (fun p => (p.1 : Sys).trace) h1
    simpa using hx.symm
  cases r1 with
  | error e => exact ⟨[Event.lightOn 1], ht1, rfl, rfl, rfl, rfl⟩
  | ok u =>
      try dsimp only
      rcases h2 : lightOn 2 s1 with ⟨s2, r2⟩
      have ht2 : s2.trace = s.trace ++ [Event.lightOn 1, Event.lightOn 2] := by
        have hx := congrArg (fun p => (p.1 : Sys).trace) h2
        simp at hx
        rw [← hx, ht1, List.append_assoc]
        rfl
      cases r2 with
      | error e => exact ⟨[Event.lightOn 1, Event.lightOn 2], ht2, rfl, rfl, rfl, rfl⟩
      | ok u2 =>
          try dsimp only
          rcases h3 : lightOn 3 s2 with ⟨s3, r3⟩
          have ht3 : s3.trace
              = s.trace ++ [Event.lightOn 1, Event.lightOn 2, Event.lightOn 3] := by
            have hx := congrArg (fun p => (p.1 : Sys).trace) h3
            simp at hx
            rw [← hx, ht2, List.append_assoc]
            rfl
          cases r3 with
          | error e =>
              exact ⟨[Event.lightOn 1, Event.lightOn 2, Event.lightOn 3], ht3,
                rfl, rfl, rfl, rfl⟩
          | ok u3 =>
              try dsimp only
              refine ⟨[Event.lightOn 1, Event.lightOn 2, Event.lightOn 3,
                Event.lightUpdate], ?_, rfl, rfl, rfl, rfl⟩
              rw [lightUpdate_trace, ht3, List.append_assoc]
              rfl

/-- The light-deactivation phase appends only light events to the trace. -/
theorem lightsOffPhase_trace (s : Sys) :
    ∃ tl, (lightsOffPhase s).1.trace = s.trace ++ tl
      ∧ countOpen tl = 0 ∧ countClose tl = 0
      ∧ countWrite tl = 0 ∧ countRead tl = 0 := by
  unfold lightsOffPhase
  rcases h1 : lightOff 1 s with ⟨s1, r1⟩
  have ht1 : s1.trace = s.trace ++ [Event.lightOff 1] := by
    have hx := congrArg (fun p => (p.1 : Sys).trace) h1
    simpa using hx.symm
  cases r1 with
  | error e => exact ⟨[Event.lightOff 1], ht1, rfl, rfl, rfl, rfl⟩
  | ok u =>
      try dsimp only
      rcases h2 : lightOff 2 s1 with ⟨s2, r2⟩
      have ht2 : s2.trace = s.trace ++ [Event.lightOff 1, Event.lightOff 2] := by
        have hx := congrArg (fun p => (p.1 : Sys).trace) h2
        simp at hx
        rw [← hx, ht1, List.append_assoc]
        rfl
      cases r2 with
      | error e => exact ⟨[Event.lightOff 1, Event.lightOff 2], ht2, rfl, rfl, rfl, rfl⟩
      | ok u2 =>
          try dsimp only
          rcases h3 : lightOff 3 s2 with ⟨s3, r3⟩
          have ht3 : s3.trace
              = s.trace ++ [Event.lightOff 1, Event.lightOff 2, Event.lightOff 3] := by
            have hx := congrArg (fun p => (p.1 : Sys).trace) h3
            simp at hx
            rw [← hx, ht2, List.append_assoc]
            rfl
          cases r3 with
          | error e =>
              exact ⟨[Event.lightOff 1, Event.lightOff 2, Event.lightOff 3], ht3,
                rfl, rfl, rfl, rfl⟩
          | ok u3 =>
              try dsimp only
              refine ⟨[Event.lightOff 1, Event.lightOff 2, Event.lightOff 3,
                Event.lightUpdate], ?_, rfl, rfl, rfl, rfl⟩
              rw [lightUpdate_trace, ht3, List.append_assoc]
              rfl

/-- Enable leaves the service state unchanged or exactly sets the bus handle
and the enabled flag; in particular it never touches the channel values. -/
theorem enable_st (s : Sys) :
    (enable s).1.st = s.st
    ∨ (enable s).1.st = { s.st with i2cBus := some (), enabled := true } := by
  unfold enable
  split
  · exact Or.inl rfl
  rcases hbo : busOpen s with ⟨s1, r1⟩
  have hs1 : s1.st = s.st := by
    have h := busOpen_st s
    rw [hbo] at h
    exact h
  cases r1 with
  | error e => exact Or.inl (by simp [hs1])
  | ok u =>
      try dsimp only
      rcases hlp : lightsOnPhase (setEnabled true (setBus (some ()) s1)) with ⟨s2, r2⟩
      have hs2 : s2.st = { s.st with i2cBus := some (), enabled := true } := by
        have h := lightsOnPhase_st (setEnabled true (setBus (some ()) s1))
        rw [hlp] at h
        rw [h]
        simp [setEnabled, setBus, hs1]
      cases r2 with
      | error e => exact Or.inr (by simp [hs2])
      | ok u2 => exact Or.inr (by simp [hs2])

/-- Characterization of the close phase: on a throw the state is unchanged,
on success the handle is cleared if it was set. -/
theorem closePhase_spec (s s1 : Sys) (r : Except Exc Unit)
    (h : closePhase s = (s1, r)) :
    ((∃ e, r = .error e) → s1.st = s.st)
    ∧ (r = .ok () → (s1.st = s.st ∨ s1.st = { s.st with i2cBus := none })) := by
  unfold closePhase busClose toExc at h
  by_cases hb : s.st.i2cBus.isSome
  · rw [if_pos hb] at h
    cases hc : s.oracle.closeRes (countClose s.trace) with
    | error c =>
        rw [hc] at h
        try dsimp only at h
        simp only [Prod.mk.injEq] at h
        constructor
        · intro hx
          rw [← h.1]
          rfl
        · intro hok
          rw [← h.2] at hok
          simp at hok
    | ok u =>
        rw [hc] at h
        try dsimp only at h
        simp only [Prod.mk.injEq] at h
        constructor
        · rintro ⟨e, he⟩
          rw [← h.2] at he
          simp at he
        · intro hx
          refine Or.inr ?_
          rw [← h.1]
          rfl
  · rw [if_neg hb] at h
    simp only [Prod.mk.injEq] at h
    constructor
    · intro hx
      rw [← h.1]
    · intro hx
      exact Or.inl (by rw [← h.1])

/-- Disable leaves the service state unchanged (close threw, or service was
not enabled), or clears exactly the enabled flag (no handle was set), or
clears the enabled flag and the handle; it never touches the channel
values. -/
theorem disable_st (s : Sys) :
    (disable s).1.st = s.st
    ∨ (disable s).1.st = { s.st with enabled := false }
    ∨ (disable s).1.st = { s.st with i2cBus := none, enabled := false } := by
  unfold disable
  split
  · exact Or.inl rfl
  rcases hcl : closePhase s with ⟨s1, r1⟩
  have hspec := closePhase_spec s s1 r1 hcl
  cases r1 with
  | error e =>
      try dsimp only
      have h := hspec.1 ⟨e, rfl⟩
      exact Or.inl (by simp [h])
  | ok u =>
      try dsimp only
      have hs1 : s1.st = s.st ∨ s1.st = { s.st with i2cBus := none } := hspec.2 rfl
      rcases hlp : lightsOffPhase (setEnabled false s1) with ⟨s2, r2⟩
      have hs2 : s2.st = (setEnabled false s1).st := by
        have h := lightsOffPhase_st (setEnabled false s1)
        rw [hlp] at h
        exact h
      have hcase : s2.st = { s.st with enabled := false }
          ∨ s2.st = { s.st with i2cBus := none, enabled := false } := by
        rcases hs1 with h | h
        · exact Or.inl (by rw [hs2]; simp [setEnabled, h])
        · exact Or.inr (by rw [hs2]; simp [setEnabled, h])
      cases r2 with
      | error e =>
          rcases hcase with h | h
          · exact Or.inr (Or.inl (by simp [h]))
          · exact Or.inr (Or.inr (by simp [h]))
      | ok u2 =>
          rcases hcase with h | h
          · exact Or.inr (Or.inl (by simp [h]))
          · exact Or.inr (Or.inr (by simp [h]))

/-- Close phase when the handle is set and closeSync succeeds. -/
theorem closePhase_ok (s : Sys) (hb : s.st.i2cBus.isSome = true)
    (hc : s.oracle.closeRes (countClose s.trace) = .ok ()) :
    closePhase s = (setBus none (emit s .closeBus), .ok ()) := by
  unfold closePhase busClose toExc
  rw [hb, hc]
  rfl

/-- Close phase when the handle is set and closeSync throws. -/
theorem closePhase_err (s : Sys) (c : Nat) (hb : s.st.i2cBus.isSome = true)
    (hc : s.oracle.closeRes (countClose s.trace) = .error c) :
    closePhase s = (emit s .closeBus, .error (.ext c)) := by
  unfold closePhase busClose toExc
  rw [hb, hc]
  rfl

/-- Behavior of enable on a disabled service: the bus open is invoked
exactly once, as the first recorded event, and when enable returns normally
the service ends enabled with the handle set. -/
theorem enable_spec (s : Sys) (h : s.st.enabled = false) :
    ∃ tl, (enable s).1.trace = s.trace ++ Event.openBus 1 :: tl
      ∧ countOpen tl = 0 ∧ countClose tl = 0
      ∧ ((enable s).2 = .ok () →
          (enable s).1.st = { s.st with i2cBus := some (), enabled := true }) := by
  unfold enable
  rw [if_neg (by simp [h])]
  rcases hbo : busOpen s with ⟨s1, r1⟩
  have ht1 : s1.trace = s.trace ++ [Event.openBus 1] := by
    have hx := congrArg (fun p => (p.1 : Sys).trace) hbo
    simpa using hx.symm
  have hs1 : s1.st = s.st := by
    have hx := busOpen_st s
    rw [hbo] at hx
    exact hx
  cases r1 with
  | error e =>
      try dsimp only
      refine ⟨[Event.logError e], ?_, rfl, rfl, ?_⟩
      · rw [logError_trace, ht1, List.append_assoc]
        rfl
      · intro hok
        simp at hok
  | ok u =>
      try dsimp only
      rcases hlp : lightsOnPhase (setEnabled true (setBus (some ()) s1)) with ⟨s2, r2⟩
      obtain ⟨tl2, htl2, ho2, hc2, -, -⟩ :=
        lightsOnPhase_trace (setEnabled true (setBus (some ()) s1))
      rw [hlp] at htl2
      have ht2 : s2.trace = s.trace ++ Event.openBus 1 :: tl2 := by
        simpa [setEnabled, setBus, ht1, List.append_assoc] using htl2
      have hst2 : s2.st = { s.st with i2cBus := some (), enabled := true } := by
        have hx := lightsOnPhase_st (setEnabled true (setBus (some ()) s1))
        rw [hlp] at hx
        rw [hx]
        simp [setEnabled, setBus, hs1]
      cases r2 with
      | error e =>
          try dsimp only
          refine ⟨tl2 ++ [Event.logError e], ?_, ?_, ?_, ?_⟩
          · rw [logError_trace, ht2]
            simp [List.append_assoc]
          · simp [ho2]
          · simp [hc2]
          · intro hok
            simp at hok
      | ok u2 =>
          try dsimp only
          exact ⟨tl2, ht2, ho2, hc2, fun hx => hst2⟩

/-- Behavior of disable on an enabled service with an open handle: disable
never throws, the bus close is invoked exactly once, as the first recorded
event; if closeSync succeeds the service ends disabled with the handle
cleared, whatever the lights do; if closeSync throws, the error is logged
and the whole service state is left untouched. -/
theorem disable_spec (s : Sys) (he : s.st.enabled = true)
    (hb : s.st.i2cBus = some ()) :
    (disable s).2 = .ok ()
    ∧ (∃ tl, (disable s).1.trace = s.trace ++ Event.closeBus :: tl
        ∧ countClose tl = 0 ∧ countOpen tl = 0)
    ∧ (s.oracle.closeRes (countClose s.trace) = .ok () →
        (disable s).1.st.enabled = false ∧ (disable s).1.st.i2cBus = none)
    ∧ (∀ c, s.oracle.closeRes (countClose s.trace) = .error c →
        (disable s).1.st = s.st ∧ Event.logError (.ext c) ∈ (disable s).1.trace) := by
  have hbs : s.st.i2cBus.isSome = true := by
    rw [hb]
    rfl
  unfold disable
  rw [if_neg (by simp [he])]
  cases hc : s.oracle.closeRes (countClose s.trace) with
  | error c =>
      rw [closePhase_err s c hbs hc]
      try dsimp only
      refine ⟨rfl, ⟨[Event.logError (.ext c)], ?_, rfl, rfl⟩, ?_, ?_⟩
      · rw [logError_trace]
        simp [emit, List.append_assoc]
      · intro hok
        simp at hok
      · intro c2 hc2
        injection hc2 with hcc
        cases hcc
        refine ⟨rfl, ?_⟩
        simp [logError, emit]
  | ok u =>
      have hcu : s.oracle.closeRes (countClose s.trace) = .ok () := by
        rw [hc]
      rw [closePhase_ok s hbs hcu]
      try dsimp only
      rcases hlp : lightsOffPhase (setEnabled false (setBus none (emit s .closeBus)))
        with ⟨s2, r2⟩
      obtain ⟨tl2, htl2, ho2, hc2, -, -⟩ :=
        lightsOffPhase_trace (setEnabled false (setBus none (emit s .closeBus)))
      rw [hlp] at htl2
      have ht2 : s2.trace = s.trace ++ Event.closeBus :: tl2 := by
        simpa [setEnabled, setBus, emit, List.append_assoc] using htl2
      have hst2 : s2.st = { s.st with i2cBus := none, enabled := false } := by
        have hx := lightsOffPhase_st (setEnabled false (setBus none (emit s .closeBus)))
        rw [hlp] at hx
        rw [hx]
        simp [setEnabled, setBus, emit]
      cases r2 with
      | error e =>
          try dsimp only
          refine ⟨rfl, ⟨tl2 ++ [Event.logError e], ?_, ?_, ?_⟩, ?_, ?_⟩
          · rw [logError_trace, ht2]
            simp [List.append_assoc]
          · simp [hc2]
          · simp [ho2]
          · intro hok
            simp [hst2]
          · intro c2 hc2x
            simp at hc2x
      | ok u2 =>
          try dsimp only
          refine ⟨rfl, ⟨tl2, ht2, hc2, ho2⟩, ?_, ?_⟩
          · intro hok
            simp [hst2]
          · intro c2 hc2x
            simp at hc2x

/-- Enabling an already-enabled service is a complete no-op. -/
theorem enable_noop (s : Sys) (h : s.st.enabled = true) : enable s = (s, .ok ()) := by
  simp [enable, h]

/-- Disabling an already-disabled service is a complete no-op. -/
theorem disable_noop (s : Sys) (h : s.st.enabled = false) : disable s = (s, .ok ()) := by
  simp [disable, h]

/-- Iterated enable on an enabled service stays put. -/
theorem iterEnable_noop (n : Nat) (s : Sys) (h : s.st.enabled = true) :
    iterEnable n s = s := by
  induction n with
  | zero => rfl
  | succ n ih =>
      unfold iterEnable
      rw [enable_noop s h]
      exact ih

/-- Iterated disable on a disabled service stays put. -/
theorem iterDisable_noop (n : Nat) (s : Sys) (h : s.st.enabled = false) :
    iterDisable n s = s := by
  induction n with
  | zero => rfl
  | succ n ih =>
      unfold iterDisable
      rw [disable_noop s h]
      exact ih

/-- The read-all operation keeps every channel value at most 4095. -/
theorem readAll_le (s : Sys) (h : ∀ k, s.st.currentValue k ≤ 4095) (j : Fin 4) :
    (readAll s).1.st.currentValue j ≤ 4095 := by
  unfold readAll
  split
  · exact h j
  rcases h0 : chanRead 0 s with ⟨s1, r1⟩
  have h1 : ∀ k, s1.st.currentValue k ≤ 4095 := by
    intro k
    have hx := chanRead_le 0 k s h
    rw [h0] at hx
    exact hx
  cases r1 with
  | error e => exact h1 j
  | ok v =>
      try dsimp only
      rcases h2 : chanRead 1 s1 with ⟨s2, r2⟩
      have hx2 : ∀ k, s2.st.currentValue k ≤ 4095 := by
        intro k
        have hx := chanRead_le 1 k s1 h1
        rw [h2] at hx
        exact hx
      cases r2 with
      | error e => exact hx2 j
      | ok v2 =>
          try dsimp only
          rcases h3 : chanRead 2 s2 with ⟨s3, r3⟩
          have hx3 : ∀ k, s3.st.currentValue k ≤ 4095 := by
            intro k
            have hx := chanRead_le 2 k s2 hx2
            rw [h3] at hx
            exact hx
          cases r3 with
          | error e => exact hx3 j
          | ok v3 =>
              try dsimp only
              rcases h4 : chanRead 3 s3 with ⟨s4, r4⟩
              have hx4 : ∀ k, s4.st.currentValue k ≤ 4095 := by
                intro k
                have hx := chanRead_le 3 k s3 hx3
                rw [h4] at hx
                exact hx
              cases r4 with
              | error e => exact hx4 j
              | ok v4 => exact hx4 j

/-- Every public operation keeps every channel value at most 4095. -/
theorem step_le (op : Op) (s : Sys) (h : ∀ k, s.st.currentValue k ≤ 4095) (j : Fin 4) :
    (step s op).st.currentValue j ≤ 4095 := by
  cases op with
  | enableOp =>
      unfold step
      rcases enable_st s with he | he <;> rw [he] <;> exact h j
  | disableOp =>
      unfold step
      rcases disable_st s with hd | hd | hd <;> rw [hd] <;> exact h j
  | readAllOp => exact readAll_le s h j
  | chanReadOp i => exact chanRead_le i j s h
  | readChannelOp c =>
      unfold step
      rw [readChannel_st c s]
      exact h j

@[simp] theorem countWrite_append (l1 l2 : List Event) :
    countWrite (l1 ++ l2) = countWrite l1 + countWrite l2 :=
  List.countP_append _ l1 l2

@[simp] theorem countRead_append (l1 l2 : List Event) :
    countRead (l1 ++ l2) = countRead l1 + countRead l2 :=
  List.countP_append _ l1 l2

@[simp] theorem countWrite_cfg (m : Nat) : countWrite [cfgEvent m] = 1 := rfl

@[simp] theorem countWrite_conv : countWrite [convEvent] = 0 := rfl

@[simp] theorem countRead_cfg (m : Nat) : countRead [cfgEvent m] = 0 := rfl

@[simp] theorem countRead_conv : countRead [convEvent] = 1 := rfl

@[simp] theorem countWrite_cons_cfg (m : Nat) (tl : List Event) :
    countWrite (cfgEvent m :: tl) = countWrite tl + 1 := by
  simp [countWrite, cfgEvent, List.countP_cons]

@[simp] theorem countWrite_cons_conv (tl : List Event) :
    countWrite (convEvent :: tl) = countWrite tl := by
  simp [countWrite, convEvent, List.countP_cons]

@[simp] theorem countRead_cons_cfg (m : Nat) (tl : List Event) :
    countRead (cfgEvent m :: tl) = countRead tl := by
  simp [countRead, cfgEvent, List.countP_cons]

@[simp] theorem countRead_cons_conv (tl : List Event) :
    countRead (convEvent :: tl) = countRead tl + 1 := by
  simp [countRead, convEvent, List.countP_cons]

@[simp] theorem countOpen_cons_open (n : Nat) (tl : List Event) :
    countOpen (.openBus n :: tl) = countOpen tl + 1 := by
  simp [countOpen, List.countP_cons]

@[simp] theorem countClose_cons_close (tl : List Event) :
    countClose (.closeBus :: tl) = countClose tl + 1 := by
  simp [countClose, List.countP_cons]

@[simp] theorem countWrite_nil : countWrite ([] : List Event) = 0 := rfl

@[simp] theorem countRead_nil : countRead ([] : List Event) = 0 := rfl

@[simp] theorem countOpen_nil : countOpen ([] : List Event) = 0 := rfl

@[simp] theorem countClose_nil : countClose ([] : List Event) = 0 := rfl

@[simp] theorem afterRead_oracle (i : Fin 4) (mux v : Nat) (s : Sys) :
    (afterRead i mux v s).oracle = s.oracle := rfl

@[simp] theorem afterRead_trace (i : Fin 4) (mux v : Nat) (s : Sys) :
    (afterRead i mux v s).trace = s.trace ++ [cfgEvent mux, convEvent] := rfl

@[simp] theorem afterRead_enabled (i : Fin 4) (mux v : Nat) (s : Sys) :
    (afterRead i mux v s).st.enabled = s.st.enabled := rfl

@[simp] theorem afterRead_bus (i : Fin 4) (mux v : Nat) (s : Sys) :
    (afterRead i mux v s).st.i2cBus = s.st.i2cBus := rfl

/-- Characterization of a fully successful readChannel: the config write for
the selected mux goes out first, then the conversion read, and the decoded
bytes are returned. -/
theorem readChannel_ok (s : Sys) (c : Int) (mux n b0 b1 : Nat)
    (he : s.st.enabled = true) (hb : s.st.i2cBus.isSome = true)
    (hm : muxConfig c = some mux)
    (hw : s.oracle.writeRes (countWrite s.trace) = .ok n)
    (hr : s.oracle.readRes (countRead s.trace) = .ok (b0, b1)) :
    readChannel c s =
      ({ s with trace := s.trace ++ [cfgEvent mux, convEvent] }, .ok (decode b0 b1)) := by
  unfold readChannel busWrite busRead toExc
  have hg : (!(s.st.enabled && s.st.i2cBus.isSome)) = false := by
    rw [he, hb]
    rfl
  rw [hg, hm]
  dsimp only [emit]
  have hcw : countWrite s.trace = countWrite s.trace := rfl
  rw [show Event.writeBlock address ADS1015_REG_CONFIG 2 (configBytes (baseConfig ||| mux))
        = cfgEvent mux from rfl]
  have hcr : countRead (s.trace ++ [cfgEvent mux]) = countRead s.trace := by simp
  rw [hw]
  dsimp only
  rw [hcr, hr]
  dsimp only
  rw [show Event.readBlock address ADS1015_REG_CONVERSION 2 = convEvent from rfl]
  rw [List.append_assoc]
  rfl

/-- Characterization of a readChannel whose config write throws: only the
config write event happens, and the error is rethrown. -/
theorem readChannel_write_fail (s : Sys) (c : Int) (mux e : Nat)
    (he : s.st.enabled = true) (hb : s.st.i2cBus.isSome = true)
    (hm : muxConfig c = some mux)
    (hw : s.oracle.writeRes (countWrite s.trace) = .error e) :
    readChannel c s = ({ s with trace := s.trace ++ [cfgEvent mux] }, .error (.ext e)) := by
  unfold readChannel busWrite toExc
  have hg : (!(s.st.enabled && s.st.i2cBus.isSome)) = false := by
    rw [he, hb]
    rfl
  rw [hg, hm]
  dsimp only [emit]
  rw [hw]
  dsimp only
  rw [show Event.writeBlock address ADS1015_REG_CONFIG 2 (configBytes (baseConfig ||| mux))
        = cfgEvent mux from rfl]
  simp

/-- Characterization of a readChannel whose conversion read throws: the
config write and the conversion read both happen, and the error is
rethrown. -/
theorem readChannel_read_fail (s : Sys) (c : Int) (mux n e : Nat)
    (he : s.st.enabled = true) (hb : s.st.i2cBus.isSome = true)
    (hm : muxConfig c = some mux)
    (hw : s.oracle.writeRes (countWrite s.trace) = .ok n)
    (hr : s.oracle.readRes (countRead s.trace) = .error e) :
    readChannel c s =
      ({ s with trace := s.trace ++ [cfgEvent mux, convEvent] }, .error (.ext e)) := by
  unfold readChannel busWrite busRead toExc
  have hg : (!(s.st.enabled && s.st.i2cBus.isSome)) = false := by
    rw [he, hb]
    rfl
  rw [hg, hm]
  dsimp only [emit]
  rw [show Event.writeBlock address ADS1015_REG_CONFIG 2 (configBytes (baseConfig ||| mux))
        = cfgEvent mux from rfl]
  have hcr : countRead (s.trace ++ [cfgEvent mux]) = countRead s.trace := by simp
  rw [hw]
  dsimp only
  rw [hcr, hr]
  dsimp only
  rw [show Event.readBlock address ADS1015_REG_CONVERSION 2 = convEvent from rfl]
  rw [List.append_assoc]
  rfl

/-- Mux selector for channel index n is 0x4000 plus n times 0x1000. -/
theorem muxConfig_fin (n : Fin 4) :
    muxConfig ((n : Nat) : Int) = some (0x4000 + (n : Nat) * 0x1000) := by
  fin_cases n <;> decide

/-- Equation form of a fully successful AnalogInput.read. -/
theorem chanRead_ok_eq (s : Sys) (i : Fin 4) (mux n b0 b1 : Nat)
    (he : s.st.enabled = true) (hb : s.st.i2cBus.isSome = true)
    (hm : muxConfig ((i : Nat) : Int) = some mux)
    (hw : s.oracle.writeRes (countWrite s.trace) = .ok n)
    (hr : s.oracle.readRes (countRead s.trace) = .ok (b0, b1)) :
    chanRead i s = (afterRead i mux (decode b0 b1) s, .ok (decode b0 b1)) := by
  unfold chanRead afterRead
  rw [readChannel_ok s _ mux n b0 b1 he hb hm hw hr]

/-- Equation form of an AnalogInput.read whose config write throws. -/
theorem chanRead_write_fail_eq (s : Sys) (i : Fin 4) (mux e : Nat)
    (he : s.st.enabled = true) (hb : s.st.i2cBus.isSome = true)
    (hm : muxConfig ((i : Nat) : Int) = some mux)
    (hw : s.oracle.writeRes (countWrite s.trace) = .error e) :
    chanRead i s = ({ s with trace := s.trace ++ [cfgEvent mux] }, .error (.ext e)) := by
  unfold chanRead
  rw [readChannel_write_fail s _ mux e he hb hm hw]

/-- Full characterization of a read-all in which all eight bus transactions
succeed: the four channels are read in order 0,1,2,3 and read-all returns
normally. -/
theorem readAll_ok_spec (s : Sys)
    (he : s.st.enabled = true) (hb : s.st.i2cBus.isSome = true)
    (n0 n1 n2 n3 b00 b01 b10 b11 b20 b21 b30 b31 : Nat)
    (hw0 : s.oracle.writeRes (countWrite s.trace) = .ok n0)
    (hr0 : s.oracle.readRes (countRead s.trace) = .ok (b00, b01))
    (hw1 : s.oracle.writeRes (countWrite s.trace + 1) = .ok n1)
    (hr1 : s.oracle.readRes (countRead s.trace + 1) = .ok (b10, b11))
    (hw2 : s.oracle.writeRes (countWrite s.trace + 2) = .ok n2)
    (hr2 : s.oracle.readRes (countRead s.trace + 2) = .ok (b20, b21))
    (hw3 : s.oracle.writeRes (countWrite s.trace + 3) = .ok n3)
    (hr3 : s.oracle.readRes (countRead s.trace + 3) = .ok (b30, b31)) :
    (readAll s).2 = .ok ()
    ∧ (readAll s).1.trace = s.trace ++
        [cfgEvent 0x4000, convEvent, cfgEvent 0x5000, convEvent,
         cfgEvent 0x6000, convEvent, cfgEvent 0x7000, convEvent] := by
  unfold readAll
  rw [if_neg (by simp [he])]
  rw [chanRead_ok_eq s 0 0x4000 n0 b00 b01 he hb (by decide) hw0 hr0]
  try dsimp only
  rw [chanRead_ok_eq (afterRead 0 0x4000 (decode b00 b01) s) 1 0x5000 n1 b10 b11
      (by simp [he]) (by simp [hb]) (by decide) (by simpa [Nat.add_assoc] using hw1)
      (by simpa [Nat.add_assoc] using hr1)]
  try dsimp only
  rw [chanRead_ok_eq (afterRead 1 0x5000 (decode b10 b11)
        (afterRead 0 0x4000 (decode b00 b01) s)) 2 0x6000 n2 b20 b21
      (by simp [he]) (by simp [hb]) (by decide) (by simpa [Nat.add_assoc] using hw2)
      (by simpa [Nat.add_assoc] using hr2)]
  try dsimp only
  rw [chanRead_ok_eq (afterRead 2 0x6000 (decode b20 b21) (afterRead 1 0x5000
        (decode b10 b11) (afterRead 0 0x4000 (decode b00 b01) s))) 3 0x7000 n3 b30 b31
      (by simp [he]) (by simp [hb]) (by decide) (by simpa [Nat.add_assoc] using hw3)
      (by simpa [Nat.add_assoc] using hr3)]
  refine ⟨rfl, ?_⟩
  try dsimp only
  simp [afterRead, setVal, List.append_assoc]

/-- Equation form of an AnalogInput.read whose conversion read throws. -/
theorem chanRead_read_fail_eq (s : Sys) (i : Fin 4) (mux n e : Nat)
    (he : s.st.enabled = true) (hb : s.st.i2cBus.isSome = true)
    (hm : muxConfig ((i : Nat) : Int) = some mux)
    (hw : s.oracle.writeRes (countWrite s.trace) = .ok n)
    (hr : s.oracle.readRes (countRead s.trace) = .error e) :
    chanRead i s =
      ({ s with trace := s.trace ++ [cfgEvent mux, convEvent] }, .error (.ext e)) := by
  unfold chanRead
  rw [readChannel_read_fail s _ mux n e he hb hm hw hr]

/-- Lights-on phase when the first light call throws. -/
theorem lightsOnPhase_fail1 (s : Sys) (c : Nat)
    (h1 : s.oracle.lightOnRes 1 (countLightOn 1 s.trace) = .error c) :
    lightsOnPhase s = (emit s (.lightOn 1), .error (.ext c)) := by
  unfold lightsOnPhase lightOn toExc
  rw [h1]
  try rfl

/-- Lights-on phase when the second light call throws. -/
theorem lightsOnPhase_fail2 (s : Sys) (c : Nat)
    (h1 : s.oracle.lightOnRes 1 (countLightOn 1 s.trace) = .ok ())
    (h2 : s.oracle.lightOnRes 2 (countLightOn 2 (s.trace ++ [Event.lightOn 1]))
        = .error c) :
    lightsOnPhase s = (emit (emit s (.lightOn 1)) (.lightOn 2), .error (.ext c)) := by
  unfold lightsOnPhase lightOn toExc
  rw [h1]
  try dsimp only [emit]
  rw [h2]
  try rfl

/-- Lights-on phase when the third light call throws. -/
theorem lightsOnPhase_fail3 (s : Sys) (c : Nat)
    (h1 : s.oracle.lightOnRes 1 (countLightOn 1 s.trace) = .ok ())
    (h2 : s.oracle.lightOnRes 2 (countLightOn 2 (s.trace ++ [Event.lightOn 1]))
        = .ok ())
    (h3 : s.oracle.lightOnRes 3
        (countLightOn 3 ((s.trace ++ [Event.lightOn 1]) ++ [Event.lightOn 2]))
        = .error c) :
    lightsOnPhase s
      = (emit (emit (emit s (.lightOn 1)) (.lightOn 2)) (.lightOn 3),
         .error (.ext c)) := by
  unfold lightsOnPhase lightOn toExc
  rw [h1]
  try dsimp only [emit]
  rw [h2]
  try dsimp only
  rw [h3]
  try rfl

/-- Lights-on phase when the batched update throws. -/
theorem lightsOnPhase_failUpd (s : Sys) (c : Nat)
    (h1 : s.oracle.lightOnRes 1 (countLightOn 1 s.trace) = .ok ())
    (h2 : s.oracle.lightOnRes 2 (countLightOn 2 (s.trace ++ [Event.lightOn 1]))
        = .ok ())
    (h3 : s.oracle.lightOnRes 3
        (countLightOn 3 ((s.trace ++ [Event.lightOn 1]) ++ [Event.lightOn 2]))
        = .ok ())
    (hu : s.oracle.updateRes
        (countUpdate (((s.trace ++ [Event.lightOn 1]) ++ [Event.lightOn 2])
          ++ [Event.lightOn 3])) = .error c) :
    lightsOnPhase s
      = (emit (emit (emit (emit s (.lightOn 1)) (.lightOn 2)) (.lightOn 3)) .lightUpdate,
         .error (.ext c)) := by
  unfold lightsOnPhase lightOn lightUpdate toExc
  rw [h1]
  try dsimp only [emit]
  rw [h2]
  try dsimp only
  rw [h3]
  try dsimp only
  rw [hu]
  try rfl

/-- Enable when the open succeeds but the light phase throws: the error is
logged and rethrown, with the partially-updated state kept. -/
theorem enable_light_fail (s sL : Sys) (c : Nat)
    (h : s.st.enabled = false)
    (ho : s.oracle.openRes (countOpen s.trace) = .ok ())
    (hlp : lightsOnPhase (setEnabled true (setBus (some ()) (emit s (.openBus 1))))
        = (sL, .error (.ext c))) :
    enable s = (logError sL (.ext c), .error (.ext c)) := by
  unfold enable busOpen toExc
  rw [if_neg (by simp [h]), ho]
  try dsimp only
  rw [hlp]
  try rfl

/-- One light-phase failure characterization suffices for the whole
partially-enabled outcome, whichever light call threw. -/
theorem partialOutcome_of_hen (o : Oracle) (st0 : ServiceState) (c : Nat) (sL : Sys)
    (hen : enable { oracle := o, trace := [], st := st0 }
        = (logError sL (.ext c), .error (.ext c)))
    (hoc : sL.oracle = o)
    (hstE : sL.st.enabled = true) (hstB : sL.st.i2cBus = some ())
    (hw : countWrite sL.trace = 0) (hr : countRead sL.trace = 0) :
    partialEnableOutcome o st0 c := by
  unfold partialEnableOutcome
  refine ⟨by rw [hen], by rw [hen]; exact hstE, by rw [hen]; exact hstB, ?_, ?_⟩
  · rw [hen]
    exact enable_noop _ hstE
  · intro n0 n1 n2 n3 b00 b01 b10 b11 b20 b21 b30 b31 hw0 hr0 hw1 hr1 hw2 hr2 hw3 hr3
    have h1x : (enable { oracle := o, trace := [], st := st0 }).1.st.enabled = true := by
      rw [hen]
      exact hstE
    have h2x : (enable { oracle := o, trace := [], st := st0 }).1.st.i2cBus.isSome
        = true := by
      rw [hen]
      rw [show (logError sL (Exc.ext c)).st.i2cBus = sL.st.i2cBus from rfl, hstB]
      rfl
    refine (readAll_ok_spec ((enable { oracle := o, trace := [], st := st0 }).1) h1x h2x
      n0 n1 n2 n3 b00 b01 b10 b11 b20 b21 b30 b31 ?_ ?_ ?_ ?_ ?_ ?_ ?_ ?_).1
    · rw [hen]
      simpa [hoc, hw] using hw0
    · rw [hen]
      simpa [hoc, hr] using hr0
    · rw [hen]
      simpa [hoc, hw] using hw1
    · rw [hen]
      simpa [hoc, hr] using hr1
    · rw [hen]
      simpa [hoc, hw] using hw2
    · rw [hen]
      simpa [hoc, hr] using hr2
    · rw [hen]
      simpa [hoc, hw] using hw3
    · rw [hen]
      simpa [hoc, hr] using hr3

/-- Any sequence of public operations keeps every channel value at most
4095. -/
theorem runOps_le (ops : List Op) (s : Sys) (h : ∀ k, s.st.currentValue k ≤ 4095)
    (j : Fin 4) : (runOps s ops).st.currentValue j ≤ 4095 := by
  induction ops generalizing s with
  | nil => exact h j
  | cons op ops ih =>
      unfold runOps
      exact ih (step s op) (fun k => step_le op s h k)

/-! Claim theorems. -/

/-- C3: readChannel decodes the conversion result by combining the two bytes
big-endian into a 16-bit value and right-shifting by 4; a 16-bit result
0x7FF0 (bytes 0x7F, 0xF0) decodes to 2047, 0x4000 to 1024, 0x2000 to 512,
and the decoded value is what readChannel returns. -/
theorem c3_decode (o : Oracle) (st0 : ServiceState) (c : Int) (mux n b0 b1 : Nat)
    (he : st0.enabled = true) (hb : st0.i2cBus = some ())
    (hm : muxConfig c = some mux)
    (hw : o.writeRes 0 = .ok n) (hr : o.readRes 0 = .ok (b0, b1)) :
    (readChannel c { oracle := o, trace := [], st := st0 }).2 = .ok (decode b0 b1)
    ∧ decode 0x7F 0xF0 = 2047 ∧ decode 0x40 0x00 = 1024 ∧ decode 0x20 0x00 = 512 := by
  refine ⟨?_, by decide, by decide, by decide⟩
  rw [readChannel_ok _ c mux n b0 b1 he (by simp [hb]) hm hw hr]

/-- Witness for C3: under the test environment, reading channel 0 of an
enabled service returns 2047. -/
theorem c3_decode_witness :
    (readChannel 0 { oracle := okOracle, trace := [], st := enabledState }).2
      = .ok 2047 := by
  have h := (c3_decode okOracle enabledState 0 0x4000 2 0x7F 0xF0 rfl rfl (by decide)
    rfl rfl).1
  exact h

/-- C5: the voltage getter equals the spec formula (r/2047)*4.096*13 and the
percent getter equals (r/2047)*100, both pure functions of the channel's own
cached raw value, and percent is not clamped: a cached value above 2047
yields percent above 100. -/
theorem c5_getters (s : Sys) (i : Fin 4) :
    voltageGet s i = specVoltage ((rawGet s i : ℚ))
    ∧ percentGet s i = specPercent ((rawGet s i : ℚ))
    ∧ (∀ s2 : Sys, s2.st.currentValue i = s.st.currentValue i →
        voltageGet s2 i = voltageGet s i ∧ percentGet s2 i = percentGet s i
        ∧ rawGet s2 i = rawGet s i)
    ∧ (2047 < rawGet s i → 100 < percentGet s i) := by
  refine ⟨rfl, rfl, ?_, ?_⟩
  · intro s2 h
    unfold voltageGet percentGet rawGet
    rw [h]
    exact ⟨rfl, rfl, rfl⟩
  · intro h
    unfold percentGet
    unfold rawGet at h
    have h2 : (2047 : ℚ) < (s.st.currentValue i : ℚ) := by exact_mod_cast h
    have h3 : (0 : ℚ) < 2047 := by norm_num
    rw [div_mul_eq_mul_div, lt_div_iff₀ h3]
    nlinarith

/-- Witness for C5: a channel caching the raw value 2048 reports a percent
above 100. -/
theorem c5_getters_witness :
    100 < percentGet { oracle := okOracle, trace := [], st := over2047State } 0 :=
  (c5_getters { oracle := okOracle, trace := [], st := over2047State } 0).2.2.2
    (by decide)

/-- C8: on an enabled driver with an open bus, readChannel with a channel
outside 0..3 fails with the invalid-argument error carrying the message
text built from the channel number, and performs no bus write or read (the
system is returned unchanged). -/
theorem c8_invalid_channel (s : Sys) (c : Int)
    (he : s.st.enabled = true) (hb : s.st.i2cBus = some ())
    (hc : c < 0 ∨ 3 < c) :
    readChannel c s = (s, .error (.invalidChannel c))
    ∧ Exc.message (.invalidChannel c)
        = "Invalid channel: " ++ toString c ++ ". Must be 0-3."
    ∧ Exc.message (.invalidChannel 4) = "Invalid channel: 4. Must be 0-3."
    ∧ Exc.message (.invalidChannel (-1)) = "Invalid channel: -1. Must be 0-3." := by
  refine ⟨?_, rfl, by decide, by decide⟩
  unfold readChannel
  have hg : (!(s.st.enabled && s.st.i2cBus.isSome)) = false := by
    rw [he, hb]
    rfl
  rw [hg]
  have h0 : ¬c = 0 := by omega
  have h1 : ¬c = 1 := by omega
  have h2 : ¬c = 2 := by omega
  have h3 : ¬c = 3 := by omega
  simp [muxConfig, h0, h1, h2, h3]

/-- Witness for C8: readChannel 4 on an enabled service fails with the
invalid-channel error and leaves the system untouched. -/
theorem c8_invalid_channel_witness :
    readChannel 4 { oracle := okOracle, trace := [], st := enabledState }
      = ({ oracle := okOracle, trace := [], st := enabledState },
         .error (.invalidChannel 4)) :=
  (c8_invalid_channel { oracle := okOracle, trace := [], st := enabledState } 4
    rfl rfl (Or.inr (by decide))).1

/-- C4: for every channel N in 0..3, readChannel on an enabled driver first
writes to the config register at device address 0x48 the two bytes of the
16-bit word equal to the OR of the fixed flag constants with the mux
selector 0x4000 plus N times 0x1000, high byte first, and any
conversion-register read comes only after that write. -/
theorem c4_config_word (o : Oracle) (st0 : ServiceState) (n : Fin 4)
    (he : st0.enabled = true) (hb : st0.i2cBus = some ()) :
    ∃ tail,
      (readChannel ((n : Nat) : Int) { oracle := o, trace := [], st := st0 }).1.trace
        = cfgEvent (0x4000 + (n : Nat) * 0x1000) :: tail
      ∧ (tail = [] ∨ tail = [convEvent])
      ∧ cfgEvent (0x4000 + (n : Nat) * 0x1000)
          = .writeBlock 0x48 0x01 2
              [(baseConfig ||| (0x4000 + (n : Nat) * 0x1000)) >>> 8 &&& 0xff,
               (baseConfig ||| (0x4000 + (n : Nat) * 0x1000)) &&& 0xff]
      ∧ baseConfig ||| (0x4000 + (n : Nat) * 0x1000)
          = (0x0003 ||| 0x0000 ||| 0x0000 ||| 0x0000 ||| 0x0080 ||| 0x0100 ||| 0x0200 |||
             0x8000) ||| (0x4000 + (n : Nat) * 0x1000)
      ∧ ((baseConfig ||| (0x4000 + (n : Nat) * 0x1000)) >>> 8 &&& 0xff) * 256
          + ((baseConfig ||| (0x4000 + (n : Nat) * 0x1000)) &&& 0xff)
          = baseConfig ||| (0x4000 + (n : Nat) * 0x1000) := by
  have hmux := muxConfig_fin n
  have hnum1 : cfgEvent (0x4000 + (n : Nat) * 0x1000)
      = .writeBlock 0x48 0x01 2
          [(baseConfig ||| (0x4000 + (n : Nat) * 0x1000)) >>> 8 &&& 0xff,
           (baseConfig ||| (0x4000 + (n : Nat) * 0x1000)) &&& 0xff] := by
    fin_cases n <;> decide
  have hnum2 : baseConfig ||| (0x4000 + (n : Nat) * 0x1000)
      = (0x0003 ||| 0x0000 ||| 0x0000 ||| 0x0000 ||| 0x0080 ||| 0x0100 ||| 0x0200 |||
         0x8000) ||| (0x4000 + (n : Nat) * 0x1000) := by
    fin_cases n <;> decide
  have hnum3 : ((baseConfig ||| (0x4000 + (n : Nat) * 0x1000)) >>> 8 &&& 0xff) * 256
      + ((baseConfig ||| (0x4000 + (n : Nat) * 0x1000)) &&& 0xff)
      = baseConfig ||| (0x4000 + (n : Nat) * 0x1000) := by
    fin_cases n <;> decide
  rcases hw : o.writeRes 0 with c | m
  · refine ⟨[], ?_, Or.inl rfl, hnum1, hnum2, hnum3⟩
    rw [readChannel_write_fail _ _ _ c he (by simp [hb]) hmux hw]
    rfl
  · rcases hr : o.readRes 0 with c | p
    · refine ⟨[convEvent], ?_, Or.inr rfl, hnum1, hnum2, hnum3⟩
      rw [readChannel_read_fail _ _ _ m c he (by simp [hb]) hmux hw hr]
      rfl
    · refine ⟨[convEvent], ?_, Or.inr rfl, hnum1, hnum2, hnum3⟩
      rcases p with ⟨b0, b1⟩
      rw [readChannel_ok _ _ _ m b0 b1 he (by simp [hb]) hmux hw hr]
      rfl

/-- Witness for C4: the concrete trace of reading channel 1 under the test
environment starts with the channel-1 config write. -/
theorem c4_config_word_witness :
    ∃ tail,
      (readChannel ((((1 : Fin 4)) : Nat) : Int)
          { oracle := okOracle, trace := [], st := enabledState }).1.trace
        = cfgEvent (0x4000 + ((1 : Fin 4) : Nat) * 0x1000) :: tail := by
  obtain ⟨tail, h, -⟩ := c4_config_word okOracle enabledState 1 rfl rfl
  exact ⟨tail, h⟩

/-- Disable never propagates an error, whatever the state and environment. -/
theorem disable_ok (s : Sys) : (disable s).2 = .ok () := by
  unfold disable
  split
  · rfl
  rcases hcl : closePhase s with ⟨s1, r1⟩
  cases r1 with
  | error e =>
      try dsimp only
      try rfl
  | ok u =>
      try dsimp only
      rcases hlp : lightsOffPhase (setEnabled false s1) with ⟨s2, r2⟩
      cases r2 with
      | error e =>
          try dsimp only
          try rfl
      | ok u2 =>
          try dsimp only
          try rfl

/-- Counterexample to C1 as stated: with a transport whose closeSync throws
(code 7), disable on an enabled service still catches, logs and suppresses
the error, but the enabled flag stays true and the bus handle stays set. -/
theorem c1_counterexample :
    (disable (enable (initSys closeFailOracle)).1).2 = .ok ()
    ∧ (disable (enable (initSys closeFailOracle)).1).1.st.enabled = true
    ∧ (disable (enable (initSys closeFailOracle)).1).1.st.i2cBus = some ()
    ∧ Event.logError (.ext 7)
        ∈ (disable (enable (initSys closeFailOracle)).1).1.trace := by
  refine ⟨rfl, rfl, rfl, ?_⟩
  decide

/-- C1 amended: every error during disable is caught and suppressed (an
error is also logged); when the bus close succeeds the driver ends with
enabled false and the handle cleared, even if a later light call throws;
but when closeSync itself throws, the service state, including the enabled
flag and the handle, is left unchanged. -/
theorem c1_disable_amended (s : Sys) :
    (disable s).2 = .ok ()
    ∧ (s.st.enabled = true → s.st.i2cBus = some () →
        s.oracle.closeRes (countClose s.trace) = .ok () →
        (disable s).1.st.enabled = false ∧ (disable s).1.st.i2cBus = none)
    ∧ (s.st.enabled = true → s.st.i2cBus = some () →
        ∀ c, s.oracle.closeRes (countClose s.trace) = .error c →
        (disable s).1.st = s.st ∧ Event.logError (.ext c) ∈ (disable s).1.trace) := by
  refine ⟨disable_ok s, ?_, ?_⟩
  · intro he hbus hc
    exact (disable_spec s he hbus).2.2.1 hc
  · intro he hbus c hc
    exact (disable_spec s he hbus).2.2.2 c hc

/-- Witness for the amended C1: with a healthy transport, disabling an
enabled service clears the enabled flag. -/
theorem c1_disable_amended_witness :
    (disable { oracle := okOracle, trace := [], st := enabledState }).1.st.enabled
      = false :=
  ((c1_disable_amended { oracle := okOracle, trace := [], st := enabledState }).2.1
    rfl rfl rfl).1

/-- Counterexample to C2 as stated: with conversion bytes 0xFF, 0xF0 a
single successful read stores 4095 in the channel, above the claimed bound
2047. -/
theorem c2_counterexample :
    (runOps (initSys maxBytesOracle) [.enableOp, .chanReadOp 0]).st.currentValue 0
      = 4095
    ∧ ¬ (runOps (initSys maxBytesOracle)
          [.enableOp, .chanReadOp 0]).st.currentValue 0 ≤ 2047 := by
  constructor
  · decide
  · decide

/-- C2 amended: a channel's cached value is 0 before any read, stays within
0..4095 under every operation sequence, and is mutated only by a successful
read of that same channel, which stores exactly the returned value: a failed
read changes nothing, the service-level readChannel mutates nothing, and
enable and disable never touch the cached values. -/
theorem c2_lastRaw_invariant :
    (∀ (o : Oracle) (i : Fin 4), (initSys o).st.currentValue i = 0)
    ∧ (∀ (o : Oracle) (ops : List Op) (i : Fin 4),
        (runOps (initSys o) ops).st.currentValue i ≤ 4095)
    ∧ (∀ (c : Int) (s : Sys), (readChannel c s).1.st = s.st)
    ∧ (∀ (i : Fin 4) (s s1 : Sys) (e : Exc),
        chanRead i s = (s1, .error e) → s1.st = s.st)
    ∧ (∀ (i : Fin 4) (s : Sys) (v : Nat),
        (chanRead i s).2 = .ok v → (chanRead i s).1.st.currentValue i = v)
    ∧ (∀ (i j : Fin 4) (s : Sys), j ≠ i →
        (chanRead i s).1.st.currentValue j = s.st.currentValue j)
    ∧ (∀ s : Sys, (enable s).1.st.currentValue = s.st.currentValue
        ∧ (disable s).1.st.currentValue = s.st.currentValue) := by
  refine ⟨fun o i => rfl, ?_, readChannel_st, ?_, ?_, ?_, ?_⟩
  · intro o ops i
    exact runOps_le ops (initSys o) (fun k => Nat.zero_le _) i
  · intro i s s1 e h
    exact chanRead_error_st i s s1 e h
  · intro i s v h
    exact chanRead_ok_val i s v h
  · intro i j s h
    exact chanRead_other_val i j s h
  · intro s
    constructor
    · rcases enable_st s with h | h <;> rw [h]
    · rcases disable_st s with h | h | h <;> rw [h]

/-- Witness for the amended C2: a channel read of channel 0 leaves channel
1's cached value untouched. -/
theorem c2_lastRaw_invariant_witness :
    (chanRead 0 { oracle := okOracle, trace := [], st := enabledState }).1.st.currentValue 1
      = ({ oracle := okOracle, trace := [], st := enabledState } : Sys).st.currentValue 1 :=
  c2_lastRaw_invariant.2.2.2.2.2.1 0 1
    { oracle := okOracle, trace := [], st := enabledState } (by decide)

/-- C6: read-all fails with the state error when the driver is not enabled,
performing no channel read; when enabled it reads channels 0,1,2,3 in that
fixed order (visible in the per-channel config words written), and a failure
of any channel's config write or conversion read, on any of the four
channels, propagates immediately, leaving later channels unread. -/
theorem c6_readAll (o : Oracle) (st0 : ServiceState) (hb : st0.i2cBus = some ()) :
    (∀ (o2 : Oracle) (st1 : ServiceState), st1.enabled = false →
        readAll { oracle := o2, trace := [], st := st1 }
          = ({ oracle := o2, trace := [], st := st1 }, .error .stateError))
    ∧ (st0.enabled = true →
        ∀ n0 n1 n2 n3 b00 b01 b10 b11 b20 b21 b30 b31 : Nat,
        o.writeRes 0 = .ok n0 → o.readRes 0 = .ok (b00, b01) →
        o.writeRes 1 = .ok n1 → o.readRes 1 = .ok (b10, b11) →
        o.writeRes 2 = .ok n2 → o.readRes 2 = .ok (b20, b21) →
        o.writeRes 3 = .ok n3 → o.readRes 3 = .ok (b30, b31) →
        (readAll { oracle := o, trace := [], st := st0 }).2 = .ok ()
        ∧ (readAll { oracle := o, trace := [], st := st0 }).1.trace =
            [cfgEvent 0x4000, convEvent, cfgEvent 0x5000, convEvent,
             cfgEvent 0x6000, convEvent, cfgEvent 0x7000, convEvent])
    ∧ (st0.enabled = true → ∀ c : Nat,
        o.writeRes 0 = .error c →
        (readAll { oracle := o, trace := [], st := st0 }).2 = .error (.ext c)
        ∧ (readAll { oracle := o, trace := [], st := st0 }).1.trace =
            [cfgEvent 0x4000])
    ∧ (st0.enabled = true → ∀ n0 c : Nat,
        o.writeRes 0 = .ok n0 → o.readRes 0 = .error c →
        (readAll { oracle := o, trace := [], st := st0 }).2 = .error (.ext c)
        ∧ (readAll { oracle := o, trace := [], st := st0 }).1.trace =
            [cfgEvent 0x4000, convEvent])
    ∧ (st0.enabled = true → ∀ n0 b00 b01 c : Nat,
        o.writeRes 0 = .ok n0 → o.readRes 0 = .ok (b00, b01) →
        o.writeRes 1 = .error c →
        (readAll { oracle := o, trace := [], st := st0 }).2 = .error (.ext c)
        ∧ (readAll { oracle := o, trace := [], st := st0 }).1.trace =
            [cfgEvent 0x4000, convEvent, cfgEvent 0x5000])
    ∧ (st0.enabled = true → ∀ n0 b00 b01 n1 c : Nat,
        o.writeRes 0 = .ok n0 → o.readRes 0 = .ok (b00, b01) →
        o.writeRes 1 = .ok n1 → o.readRes 1 = .error c →
        (readAll { oracle := o, trace := [], st := st0 }).2 = .error (.ext c)
        ∧ (readAll { oracle := o, trace := [], st := st0 }).1.trace =
            [cfgEvent 0x4000, convEvent, cfgEvent 0x5000, convEvent])
    ∧ (st0.enabled = true → ∀ n0 b00 b01 n1 b10 b11 c : Nat,
        o.writeRes 0 = .ok n0 → o.readRes 0 = .ok (b00, b01) →
        o.writeRes 1 = .ok n1 → o.readRes 1 = .ok (b10, b11) →
        o.writeRes 2 = .error c →
        (readAll { oracle := o, trace := [], st := st0 }).2 = .error (.ext c)
        ∧ (readAll { oracle := o, trace := [], st := st0 }).1.trace =
            [cfgEvent 0x4000, convEvent, cfgEvent 0x5000, convEvent, cfgEvent 0x6000])
    ∧ (st0.enabled = true → ∀ n0 b00 b01 n1 b10 b11 n2 c : Nat,
        o.writeRes 0 = .ok n0 → o.readRes 0 = .ok (b00, b01) →
        o.writeRes 1 = .ok n1 → o.readRes 1 = .ok (b10, b11) →
        o.writeRes 2 = .ok n2 → o.readRes 2 = .error c →
        (readAll { oracle := o, trace := [], st := st0 }).2 = .error (.ext c)
        ∧ (readAll { oracle := o, trace := [], st := st0 }).1.trace =
            [cfgEvent 0x4000, convEvent, cfgEvent 0x5000, convEvent, cfgEvent 0x6000, convEvent])
    ∧ (st0.enabled = true → ∀ n0 b00 b01 n1 b10 b11 n2 b20 b21 c : Nat,
        o.writeRes 0 = .ok n0 → o.readRes 0 = .ok (b00, b01) →
        o.writeRes 1 = .ok n1 → o.readRes 1 = .ok (b10, b11) →
        o.writeRes 2 = .ok n2 → o.readRes 2 = .ok (b20, b21) →
        o.writeRes 3 = .error c →
        (readAll { oracle := o, trace := [], st := st0 }).2 = .error (.ext c)
        ∧ (readAll { oracle := o, trace := [], st := st0 }).1.trace =
            [cfgEvent 0x4000, convEvent, cfgEvent 0x5000, convEvent, cfgEvent 0x6000, convEvent, cfgEvent 0x7000])
    ∧ (st0.enabled = true → ∀ n0 b00 b01 n1 b10 b11 n2 b20 b21 n3 c : Nat,
        o.writeRes 0 = .ok n0 → o.readRes 0 = .ok (b00, b01) →
        o.writeRes 1 = .ok n1 → o.readRes 1 = .ok (b10, b11) →
        o.writeRes 2 = .ok n2 → o.readRes 2 = .ok (b20, b21) →
        o.writeRes 3 = .ok n3 → o.readRes 3 = .error c →
        (readAll { oracle := o, trace := [], st := st0 }).2 = .error (.ext c)
        ∧ (readAll { oracle := o, trace := [], st := st0 }).1.trace =
            [cfgEvent 0x4000, convEvent, cfgEvent 0x5000, convEvent, cfgEvent 0x6000, convEvent, cfgEvent 0x7000, convEvent]) := by
  have hbs : st0.i2cBus.isSome = true := by
    rw [hb]
    rfl
  refine ⟨?_, ?_, ?_, ?_, ?_, ?_, ?_, ?_, ?_, ?_⟩
  · intro o2 st1 h
    unfold readAll
    rw [if_pos (by simp [h])]
  · intro he n0 n1 n2 n3 b00 b01 b10 b11 b20 b21 b30 b31 hw0 hr0 hw1 hr1 hw2 hr2 hw3 hr3
    have h := readAll_ok_spec { oracle := o, trace := [], st := st0 } he hbs
      n0 n1 n2 n3 b00 b01 b10 b11 b20 b21 b30 b31 hw0 hr0 hw1 hr1 hw2 hr2 hw3 hr3
    exact ⟨h.1, by simpa using h.2⟩
  · intro he c hwf
    unfold readAll
    rw [if_neg (by simp [he])]
    rw [chanRead_write_fail_eq { oracle := o, trace := [], st := st0 } 0 0x4000 c he hbs (by decide) hwf]
    exact ⟨rfl, rfl⟩
  · intro he n0 c hw0 hrf
    unfold readAll
    rw [if_neg (by simp [he])]
    rw [chanRead_read_fail_eq { oracle := o, trace := [], st := st0 } 0 0x4000 n0 c he hbs (by decide) hw0 hrf]
    exact ⟨rfl, rfl⟩
  · intro he n0 b00 b01 c hw0 hr0 hwf
    unfold readAll
    rw [if_neg (by simp [he])]
    rw [chanRead_ok_eq { oracle := o, trace := [], st := st0 } 0 0x4000 n0 b00 b01 he hbs
        (by decide) hw0 hr0]
    try dsimp only
    rw [chanRead_write_fail_eq (afterRead 0 0x4000 (decode b00 b01) { oracle := o, trace := [], st := st0 }) 1 0x5000 c he hbs (by decide) hwf]
    exact ⟨rfl, rfl⟩
  · intro he n0 b00 b01 n1 c hw0 hr0 hw1 hrf
    unfold readAll
    rw [if_neg (by simp [he])]
    rw [chanRead_ok_eq { oracle := o, trace := [], st := st0 } 0 0x4000 n0 b00 b01 he hbs
        (by decide) hw0 hr0]
    try dsimp only
    rw [chanRead_read_fail_eq (afterRead 0 0x4000 (decode b00 b01) { oracle := o, trace := [], st := st0 }) 1 0x5000 n1 c he hbs (by decide) hw1 hrf]
    exact ⟨rfl, rfl⟩
  · intro he n0 b00 b01 n1 b10 b11 c hw0 hr0 hw1 hr1 hwf
    unfold readAll
    rw [if_neg (by simp [he])]
    rw [chanRead_ok_eq { oracle := o, trace := [], st := st0 } 0 0x4000 n0 b00 b01 he hbs
        (by decide) hw0 hr0]
    try dsimp only
    rw [chanRead_ok_eq (afterRead 0 0x4000 (decode b00 b01) { oracle := o, trace := [], st := st0 }) 1 0x5000 n1 b10 b11 he hbs
        (by decide) hw1 hr1]
    try dsimp only
    rw [chanRead_write_fail_eq (afterRead 1 0x5000 (decode b10 b11) (afterRead 0 0x4000 (decode b00 b01) { oracle := o, trace := [], st := st0 })) 2 0x6000 c he hbs (by decide) hwf]
    exact ⟨rfl, rfl⟩
  · intro he n0 b00 b01 n1 b10 b11 n2 c hw0 hr0 hw1 hr1 hw2 hrf
    unfold readAll
    rw [if_neg (by simp [he])]
    rw [chanRead_ok_eq { oracle := o, trace := [], st := st0 } 0 0x4000 n0 b00 b01 he hbs
        (by decide) hw0 hr0]
    try dsimp only
    rw [chanRead_ok_eq (afterRead 0 0x4000 (decode b00 b01) { oracle := o, trace := [], st := st0 }) 1 0x5000 n1 b10 b11 he hbs
        (by decide) hw1 hr1]
    try dsimp only
    rw [chanRead_read_fail_eq (afterRead 1 0x5000 (decode b10 b11) (afterRead 0 0x4000 (decode b00 b01) { oracle := o, trace := [], st := st0 })) 2 0x6000 n2 c he hbs (by decide) hw2 hrf]
    exact ⟨rfl, rfl⟩
  · intro he n0 b00 b01 n1 b10 b11 n2 b20 b21 c hw0 hr0 hw1 hr1 hw2 hr2 hwf
    unfold readAll
    rw [if_neg (by simp [he])]
    rw [chanRead_ok_eq { oracle := o, trace := [], st := st0 } 0 0x4000 n0 b00 b01 he hbs
        (by decide) hw0 hr0]
    try dsimp only
    rw [chanRead_ok_eq (afterRead 0 0x4000 (decode b00 b01) { oracle := o, trace := [], st := st0 }) 1 0x5000 n1 b10 b11 he hbs
        (by decide) hw1 hr1]
    try dsimp only
    rw [chanRead_ok_eq (afterRead 1 0x5000 (decode b10 b11) (afterRead 0 0x4000 (decode b00 b01) { oracle := o, trace := [], st := st0 })) 2 0x6000 n2 b20 b21 he hbs
        (by decide) hw2 hr2]
    try dsimp only
    rw [chanRead_write_fail_eq (afterRead 2 0x6000 (decode b20 b21) (afterRead 1 0x5000 (decode b10 b11) (afterRead 0 0x4000 (decode b00 b01) { oracle := o, trace := [], st := st0 }))) 3 0x7000 c he hbs (by decide) hwf]
    exact ⟨rfl, rfl⟩
  · intro he n0 b00 b01 n1 b10 b11 n2 b20 b21 n3 c hw0 hr0 hw1 hr1 hw2 hr2 hw3 hrf
    unfold readAll
    rw [if_neg (by simp [he])]
    rw [chanRead_ok_eq { oracle := o, trace := [], st := st0 } 0 0x4000 n0 b00 b01 he hbs
        (by decide) hw0 hr0]
    try dsimp only
    rw [chanRead_ok_eq (afterRead 0 0x4000 (decode b00 b01) { oracle := o, trace := [], st := st0 }) 1 0x5000 n1 b10 b11 he hbs
        (by decide) hw1 hr1]
    try dsimp only
    rw [chanRead_ok_eq (afterRead 1 0x5000 (decode b10 b11) (afterRead 0 0x4000 (decode b00 b01) { oracle := o, trace := [], st := st0 })) 2 0x6000 n2 b20 b21 he hbs
        (by decide) hw2 hr2]
    try dsimp only
    rw [chanRead_read_fail_eq (afterRead 2 0x6000 (decode b20 b21) (afterRead 1 0x5000 (decode b10 b11) (afterRead 0 0x4000 (decode b00 b01) { oracle := o, trace := [], st := st0 }))) 3 0x7000 n3 c he hbs (by decide) hw3 hrf]
    exact ⟨rfl, rfl⟩

/-- Witness for C6: under the test environment, read-all on an enabled
service returns normally. -/
theorem c6_readAll_witness :
    (readAll { oracle := okOracle, trace := [], st := enabledState }).2 = .ok () :=
  ((c6_readAll okOracle enabledState rfl).2.1 rfl 2 2 2 2 0x7F 0xF0 0x7F 0xF0
    0x7F 0xF0 0x7F 0xF0 rfl rfl rfl rfl rfl rfl rfl rfl).1

/-- C7: AnalogInput.read propagates a driver error unchanged, leaving the
whole channel state (in particular its cached value) as it was; on success
it stores the returned raw value in its own slot and returns it, leaving
other channels untouched. -/
theorem c7_chanRead (i : Fin 4) (s : Sys) :
    (∀ (s1 : Sys) (e : Exc), readChannel ((i : Nat) : Int) s = (s1, .error e) →
        chanRead i s = (s1, .error e) ∧ s1.st = s.st)
    ∧ (∀ (s1 : Sys) (v : Nat), readChannel ((i : Nat) : Int) s = (s1, .ok v) →
        (chanRead i s).2 = .ok v ∧ (chanRead i s).1.st.currentValue i = v
        ∧ ∀ j, j ≠ i → (chanRead i s).1.st.currentValue j = s.st.currentValue j) := by
  constructor
  · intro s1 e h
    refine ⟨?_, ?_⟩
    · unfold chanRead
      rw [h]
    · have hx := readChannel_st ((i : Nat) : Int) s
      rw [h] at hx
      exact hx
  · intro s1 v h
    have hst : s1.st = s.st := by
      have hx := readChannel_st ((i : Nat) : Int) s
      rw [h] at hx
      exact hx
    have hcr : chanRead i s = (setVal i v s1, .ok v) := by
      unfold chanRead
      rw [h]
    refine ⟨by rw [hcr], ?_, ?_⟩
    · rw [hcr]
      simp [setVal, Function.update_same]
    · intro j hj
      rw [hcr]
      simp [setVal, hst, Function.update_noteq hj]

/-- Witness for C7: a successful channel-0 read stores and returns 2047
under the test environment. -/
theorem c7_chanRead_witness :
    (chanRead 0 { oracle := okOracle, trace := [], st := enabledState }).2
      = .ok 2047 :=
  ((c7_chanRead 0 { oracle := okOracle, trace := [], st := enabledState }).2
    { oracle := okOracle, trace := [cfgEvent 0x4000, convEvent], st := enabledState }
    2047 rfl).1

/-- C9: a second enable is a complete no-op and repeated enables open the
bus exactly once; a second disable is a complete no-op and repeated
disables close the bus exactly once. -/
theorem c9_idempotent (s : Sys) :
    (s.st.enabled = true → enable s = (s, .ok ()))
    ∧ (s.st.enabled = false →
        countOpen (enable s).1.trace = countOpen s.trace + 1)
    ∧ (s.st.enabled = false → (enable s).2 = .ok () →
        ∀ n, countOpen (iterEnable n (enable s).1).trace = countOpen s.trace + 1)
    ∧ (s.st.enabled = false → disable s = (s, .ok ()))
    ∧ (s.st.enabled = true → s.st.i2cBus = some () →
        countClose (disable s).1.trace = countClose s.trace + 1)
    ∧ (s.st.enabled = true → s.st.i2cBus = some () →
        s.oracle.closeRes (countClose s.trace) = .ok () →
        ∀ n, countClose (iterDisable n (disable s).1).trace = countClose s.trace + 1) := by
  have hopen : s.st.enabled = false →
      countOpen (enable s).1.trace = countOpen s.trace + 1 := by
    intro h
    obtain ⟨tl, htr, ho, -, -⟩ := enable_spec s h
    rw [htr]
    simp [ho]
  have hclose : s.st.enabled = true → s.st.i2cBus = some () →
      countClose (disable s).1.trace = countClose s.trace + 1 := by
    intro he hbus
    obtain ⟨-, ⟨tl, htr, hcl, -⟩, -, -⟩ := disable_spec s he hbus
    rw [htr]
    simp [hcl]
  refine ⟨fun h => enable_noop s h, hopen, ?_, fun h => disable_noop s h, hclose, ?_⟩
  · intro h hok n
    obtain ⟨tl, htr, ho, -, hst⟩ := enable_spec s h
    have hen : (enable s).1.st.enabled = true := by
      rw [hst hok]
    rw [iterEnable_noop n _ hen]
    exact hopen h
  · intro he hbus hc n
    have hden : (disable s).1.st.enabled = false :=
      ((disable_spec s he hbus).2.2.1 hc).1
    rw [iterDisable_noop n _ hden]
    exact hclose he hbus

/-- Witness for C9: two further enables after a successful one leave the
open count at one. -/
theorem c9_idempotent_witness :
    countOpen (iterEnable 2 (enable (initSys okOracle)).1).trace
      = countOpen (initSys okOracle).trace + 1 :=
  (c9_idempotent (initSys okOracle)).2.2.1 rfl rfl 2

/-- C10: if the bus open succeeds but any of the light-activation calls
throws - the first, second or third on() or the batched update() - enable
rethrows the error yet leaves the service partially enabled: enabled is true
and the bus handle is set, so a later read-all succeeds and a later enable
is a no-op. -/
theorem c10_partial_enable (o : Oracle) (st0 : ServiceState) (c : Nat)
    (he : st0.enabled = false) (ho : o.openRes 0 = .ok ()) :
    (o.lightOnRes 1 0 = .error c → partialEnableOutcome o st0 c)
    ∧ (o.lightOnRes 1 0 = .ok () → o.lightOnRes 2 0 = .error c →
        partialEnableOutcome o st0 c)
    ∧ (o.lightOnRes 1 0 = .ok () → o.lightOnRes 2 0 = .ok () →
        o.lightOnRes 3 0 = .error c → partialEnableOutcome o st0 c)
    ∧ (o.lightOnRes 1 0 = .ok () → o.lightOnRes 2 0 = .ok () →
        o.lightOnRes 3 0 = .ok () → o.updateRes 0 = .error c →
        partialEnableOutcome o st0 c) := by
  refine ⟨?_, ?_, ?_, ?_⟩
  · intro h1
    exact partialOutcome_of_hen o st0 c _
      (enable_light_fail { oracle := o, trace := [], st := st0 } _ c he ho
        (lightsOnPhase_fail1 (setEnabled true (setBus (some ())
            (emit { oracle := o, trace := [], st := st0 } (.openBus 1)))) c h1))
      rfl rfl rfl rfl rfl
  · intro h1 h2
    exact partialOutcome_of_hen o st0 c _
      (enable_light_fail { oracle := o, trace := [], st := st0 } _ c he ho
        (lightsOnPhase_fail2 (setEnabled true (setBus (some ())
            (emit { oracle := o, trace := [], st := st0 } (.openBus 1)))) c h1 h2))
      rfl rfl rfl rfl rfl
  · intro h1 h2 h3
    exact partialOutcome_of_hen o st0 c _
      (enable_light_fail { oracle := o, trace := [], st := st0 } _ c he ho
        (lightsOnPhase_fail3 (setEnabled true (setBus (some ())
            (emit { oracle := o, trace := [], st := st0 } (.openBus 1)))) c h1 h2 h3))
      rfl rfl rfl rfl rfl
  · intro h1 h2 h3 hu
    exact partialOutcome_of_hen o st0 c _
      (enable_light_fail { oracle := o, trace := [], st := st0 } _ c he ho
        (lightsOnPhase_failUpd (setEnabled true (setBus (some ())
            (emit { oracle := o, trace := [], st := st0 } (.openBus 1)))) c h1 h2 h3 hu))
      rfl rfl rfl rfl rfl

/-- Witness for C10: under an environment whose first light call throws with
code 9, enable throws yet leaves the driver enabled. -/
theorem c10_partial_enable_witness :
    (enable { oracle := light1FailOracle, trace := [], st := initState }).2
        = .error (.ext 9)
    ∧ (enable { oracle := light1FailOracle, trace := [], st := initState }).1.st.enabled
        = true := by
  have h := (c10_partial_enable light1FailOracle initState 9 rfl rfl).1 rfl
  exact ⟨h.1, h.2.1⟩

end AutomationHat
